import Mathlib

/-!
Verification development for the billing/ledger consistency engine of the
dlapp_crm repository (`core/models.py`, `core/signals.py`, `core/views.py`).

Monetary amounts are exact fixed-point decimals in the source (Python
`Decimal` with 2 fractional digits); they are modelled as `Int` (the scale
is irrelevant to every property proved here).  Database tables are modelled
as association lists from primary keys (`Nat`) to row records; the
`MedicineStock.current_quantity` column and `Patient.balance` column are
modelled as total functions from ids defaulting to `0`, matching the
source's `get_or_create(..., defaults={...: 0})` provisioning.

Each database operation is modelled as a pure state transformer translated
from the corresponding `save`/`delete` override, signal handler, or view
orchestration function.  A failing operation (insufficient stock) leaves
the state unchanged, matching the enclosing `transaction.atomic` rollback.
-/

namespace DlappCrm

/-- Association-list lookup by key: returns the first row with the given
primary key, like a SQL lookup by unique pk. -/
def lookupTbl {α : Type} : List (Nat × α) → Nat → Option α
  | [], _ => none
  | (k', v) :: rest, k => if k' = k then some v else lookupTbl rest k

/-- Association-list upsert: replaces the row with the given key when it
exists, otherwise appends a fresh row (a SQL INSERT ... or UPDATE by pk). -/
def insertTbl {α : Type} : List (Nat × α) → Nat → α → List (Nat × α)
  | [], k, v => [(k, v)]
  | (k', v') :: rest, k, v =>
      if k' = k then (k, v) :: rest else (k', v') :: insertTbl rest k v

/-- Association-list deletion of the row with the given key (SQL DELETE by
pk); a no-op when the key is absent. -/
def removeTbl {α : Type} : List (Nat × α) → Nat → List (Nat × α)
  | [], _ => []
  | (k', v') :: rest, k =>
      if k' = k then rest else (k', v') :: removeTbl rest k

/-- Sum of a contribution function over all rows of a table (a SQL
`aggregate(Sum(...))`). -/
def sumBy {α : Type} (f : α → Int) : List (Nat × α) → Int
  | [] => 0
  | e :: rest => f e.2 + sumBy f rest

/-- Contribution of an optional row to a sum: `0` when absent. -/
def optSum {α : Type} (f : α → Int) : Option α → Int
  | none => 0
  | some v => f v

theorem lookupTbl_insertTbl_self {α : Type} (tbl : List (Nat × α)) (k : Nat) (v : α) :
    lookupTbl (insertTbl tbl k v) k = some v := by
  induction tbl with
  | nil => simp [insertTbl, lookupTbl]
  | cons e rest ih =>
    by_cases h : e.1 = k <;> simp [insertTbl, lookupTbl, h, ih]

theorem lookupTbl_insertTbl_ne {α : Type} (tbl : List (Nat × α)) (k k' : Nat) (v : α)
    (h : k' ≠ k) : lookupTbl (insertTbl tbl k v) k' = lookupTbl tbl k' := by
  have h2 : ¬ k = k' := fun hk => h hk.symm
  induction tbl with
  | nil => simp [insertTbl, lookupTbl, h2]
  | cons e rest ih =>
    by_cases he : e.1 = k
    · subst he
      simp [insertTbl, lookupTbl, h2]
    · by_cases he' : e.1 = k' <;> simp [insertTbl, lookupTbl, he, he', ih, h]

theorem insertTbl_insertTbl_self {α : Type} (tbl : List (Nat × α)) (k : Nat) (v w : α) :
    insertTbl (insertTbl tbl k v) k w = insertTbl tbl k w := by
  induction tbl with
  | nil => simp [insertTbl]
  | cons e rest ih =>
    by_cases h : e.1 = k <;> simp [insertTbl, h, ih]

theorem sumBy_insertTbl {α : Type} (f : α → Int) (tbl : List (Nat × α)) (k : Nat) (v : α) :
    sumBy f (insertTbl tbl k v) = sumBy f tbl - optSum f (lookupTbl tbl k) + f v := by
  induction tbl with
  | nil => simp [insertTbl, sumBy, lookupTbl, optSum]
  | cons e rest ih =>
    by_cases h : e.1 = k
    · simp [insertTbl, sumBy, lookupTbl, h, optSum]
      ring
    · simp [insertTbl, sumBy, lookupTbl, h, ih]
      ring

theorem sumBy_removeTbl {α : Type} (f : α → Int) (tbl : List (Nat × α)) (k : Nat) :
    sumBy f (removeTbl tbl k) = sumBy f tbl - optSum f (lookupTbl tbl k) := by
  induction tbl with
  | nil => simp [removeTbl, sumBy, lookupTbl, optSum]
  | cons e rest ih =>
    by_cases h : e.1 = k
    · simp [removeTbl, sumBy, lookupTbl, h, optSum]
    · simp [removeTbl, sumBy, lookupTbl, h, ih]
      ring

/-- Pointwise update of a keyed running total (`UPDATE ... SET x = x + δ`). -/
def bump (f : Nat → Int) (k : Nat) (δ : Int) : Nat → Int :=
  fun k' => if k' = k then f k' + δ else f k'

theorem bump_self (f : Nat → Int) (k : Nat) (δ : Int) : bump f k δ k = f k + δ := by
  simp [bump]

theorem bump_ne (f : Nat → Int) (k k' : Nat) (δ : Int) (h : k' ≠ k) :
    bump f k δ k' = f k' := by
  simp [bump, h]

/-!
Stock ledger — `core/models.py` `StockTransaction` and `MedicineStock`,
`core/signals.py` `_apply_stock_delta`, `remember_old_fields`,
`apply_stock_on_save`, `revert_stock_on_delete`.
-/

/-- Transaction types of `StockTransaction.TRANSACTION_TYPE_CHOICES`. -/
inductive TransactionType where
  | purchase
  | sale
  | adjustment
  | expired
  | damaged
  | ret
deriving DecidableEq, Repr

/-- Membership in `StockTransaction.IN_TYPES = {'purchase', 'return'}`. -/
def inTypes : TransactionType → Bool
  | .purchase => true
  | .ret => true
  | _ => false

/-- Membership in `StockTransaction.OUT_TYPES = {'sale', 'expired', 'damaged'}`. -/
def outTypes : TransactionType → Bool
  | .sale => true
  | .expired => true
  | .damaged => true
  | _ => false

/-- Sign coercion of `StockTransaction._normalize_quantity_sign`: incoming
types store `abs(quantity)`, outgoing types store `-abs(quantity)`, and any
other type (adjustment) keeps the supplied value. -/
def normalize_quantity_sign (t : TransactionType) (q : Int) : Int :=
  if inTypes t then (q.natAbs : Int)
  else if outTypes t then -(q.natAbs : Int)
  else q

/-- Row of the `stock_transactions` table (the fields the ledger math
reads: `medicine_id`, `transaction_type`, `quantity`). -/
structure StockTx where
  medicine : Nat
  transaction_type : TransactionType
  quantity : Int
deriving DecidableEq, Repr

/-- Failure raised by `_apply_stock_delta` when a delta would drive
`current_quantity` negative ("Insufficient stock ... would go negative"). -/
structure InsufficientStockError where
  medicine : Nat
  wouldBe : Int
deriving DecidableEq, Repr

/-- State of the stock ledger: the `stock_transactions` table plus the
`current_quantity` column of `medicine_stocks`, keyed by medicine id and
defaulting to `0` (`get_or_create` provisioning). -/
structure StockState where
  txs : List (Nat × StockTx)
  stock : Nat → Int

/-- Empty stock ledger. -/
def initStock : StockState := { txs := [], stock := fun _ => 0 }

/-- Translation of `_apply_stock_delta`: read the locked stock row
(defaulting to 0), fail when `current_quantity + delta < 0`, else write the
new quantity. -/
def apply_stock_delta (stock : Nat → Int) (m : Nat) (delta : Int) :
    Except InsufficientStockError (Nat → Int) :=
  let newQty := stock m + delta
  if newQty < 0 then .error ⟨m, newQty⟩
  else .ok (fun m' => if m' = m then newQty else stock m')

/-- Translation of `StockTransaction.save`: `_normalize_quantity_sign`,
then `remember_old_fields` (cache the persisted quantity/medicine, or
`0`/`None` when the row is new), the row write, and `apply_stock_on_save`
(medicine-change double delta, else incremental delta, skipping zero).
The `.error` is the exception raised by `_apply_stock_delta` propagating
out of `save()`; what persists on that error depends on the caller's
transaction: under an enclosing `transaction.atomic` (`pharmacy_tx_edit`,
`pharmacy_stock_adjust`, the admin) the whole save rolls back, while the
non-atomic create endpoint commits the row write first — that autocommit
path is modelled by `stock_tx_create` below. -/
def stockTransactionSave (s : StockState) (txid : Nat) (tx : StockTx) :
    Except InsufficientStockError StockState :=
  let tx' : StockTx := { tx with quantity := normalize_quantity_sign tx.transaction_type tx.quantity }
  let oldFields : Int × Option Nat :=
    match lookupTbl s.txs txid with
    | some old => (old.quantity, some old.medicine)
    | none => (0, none)
  let oldQty := oldFields.1
  let s1 : StockState := { s with txs := insertTbl s.txs txid tx' }
  match oldFields.2 with
  | some om =>
    if om ≠ tx'.medicine then
      match apply_stock_delta s1.stock om (-oldQty) with
      | .error e => .error e
      | .ok st1 =>
        match apply_stock_delta st1 tx'.medicine tx'.quantity with
        | .error e => .error e
        | .ok st2 => .ok { s1 with stock := st2 }
    else
      let delta := tx'.quantity - oldQty
      if delta = 0 then .ok s1
      else
        match apply_stock_delta s1.stock tx'.medicine delta with
        | .error e => .error e
        | .ok st => .ok { s1 with stock := st }
  | none =>
    let delta := tx'.quantity - oldQty
    if delta = 0 then .ok s1
    else
      match apply_stock_delta s1.stock tx'.medicine delta with
      | .error e => .error e
      | .ok st => .ok { s1 with stock := st }

/-- Translation of a `StockTransaction` delete: the row removal followed by
`revert_stock_on_delete` (`-quantity` applied unless the quantity is zero);
a missing row is a no-op.  Deletes are reachable only through the admin,
which wraps them in a transaction, so an error rolls the operation back. -/
def stockTransactionDelete (s : StockState) (txid : Nat) :
    Except InsufficientStockError StockState :=
  match lookupTbl s.txs txid with
  | none => .ok s
  | some tx =>
    let s1 : StockState := { s with txs := removeTbl s.txs txid }
    if tx.quantity = 0 then .ok s1
    else
      match apply_stock_delta s1.stock tx.medicine (-tx.quantity) with
      | .error e => .error e
      | .ok st => .ok { s1 with stock := st }

/-- Translation of the POST path of `stock_tx_create`, the one stock
endpoint with no `transaction.atomic` (and `ATOMIC_REQUESTS` is unset):
Django autocommits the row INSERT inside `save_base` before the
`post_save` signal runs, so when `_apply_stock_delta` raises insufficient
stock the already-committed row survives, carrying its normalized
quantity, while `current_quantity` stays untouched — the request fails
*after* the partial commit.  The endpoint always inserts a brand-new row
(the form instance gets a fresh UUID pk), so the committed partial effect
of a failure is exactly that row. -/
def stock_tx_create (s : StockState) (txid : Nat) (tx : StockTx) : StockState :=
  match stockTransactionSave s txid tx with
  | .ok s' => s'
  | .error _ =>
    { s with
        txs := insertTbl s.txs txid
          ({ tx with quantity := normalize_quantity_sign tx.transaction_type tx.quantity }) }

/-- Operations of the stock ledger reachable from the endpoints: a save
through a transaction-wrapped endpoint (`pharmacy_tx_edit`,
`pharmacy_stock_adjust`, the admin — create or update, the code
distinguishes them only by row existence), a create through the
non-atomic `stock_tx_create` endpoint, and a delete (admin only). -/
inductive StockOp where
  | save (txid : Nat) (tx : StockTx)
  | createAutocommit (txid : Nat) (tx : StockTx)
  | del (txid : Nat)

/-- Run one stock operation.  A failed save or delete through a
transaction-wrapped endpoint leaves the state unchanged (rollback); a
failed create through the non-atomic `stock_tx_create` endpoint keeps the
committed row. -/
def runStockOp (s : StockState) : StockOp → StockState
  | .save txid tx =>
    match stockTransactionSave s txid tx with
    | .ok s' => s'
    | .error _ => s
  | .createAutocommit txid tx => stock_tx_create s txid tx
  | .del txid =>
    match stockTransactionDelete s txid with
    | .ok s' => s'
    | .error _ => s

/-- Whether an operation's failure rolls back: true for the operations of
the transaction-wrapped endpoints, false for the autocommit create. -/
def runsAtomically : StockOp → Bool
  | .save _ _ => true
  | .createAutocommit _ _ => false
  | .del _ => true

/-- Run a sequence of stock operations from a given state. -/
def runStockOps (ops : List StockOp) (s : StockState) : StockState :=
  ops.foldl runStockOp s

/-- Sum of the stored (sign-normalized) quantities of all transactions of
one medicine (`Σ StockTransaction.quantity`). -/
def sumTxFor (txs : List (Nat × StockTx)) (m : Nat) : Int :=
  sumBy (fun tx => if tx.medicine = m then tx.quantity else 0) txs

/-- Stock reconciliation invariant: every medicine's `current_quantity`
equals the sum of its transactions' quantities. -/
def stockInv (s : StockState) : Prop :=
  ∀ m, s.stock m = sumTxFor s.txs m

theorem apply_stock_delta_ok (stock : Nat → Int) (m : Nat) (δ : Int) (st : Nat → Int)
    (h : apply_stock_delta stock m δ = .ok st) :
    (∀ m', st m' = if m' = m then stock m + δ else stock m') ∧ 0 ≤ stock m + δ := by
  by_cases hlt : stock m + δ < 0
  · simp [apply_stock_delta, hlt] at h
  · simp only [apply_stock_delta, if_neg hlt, Except.ok.injEq] at h
    refine ⟨fun m' => ?_, by omega⟩
    rw [← h]

theorem stockInv_stockTransactionSave (s : StockState) (txid : Nat) (tx : StockTx)
    (s' : StockState) (hinv : stockInv s) (h : stockTransactionSave s txid tx = .ok s') :
    stockInv s' := by
  unfold stockTransactionSave at h
  set q' := normalize_quantity_sign tx.transaction_type tx.quantity with hq'
  cases hold : lookupTbl s.txs txid with
  | none =>
    simp only [hold] at h
    split at h
    · next hδ =>
      simp only [Except.ok.injEq] at h
      subst h
      intro m
      have hb := hinv m
      simp only [sumTxFor] at hb ⊢
      rw [sumBy_insertTbl, hold]
      simp only [optSum, sumBy]
      by_cases hm : tx.medicine = m <;> simp [hm, ← hb] <;> omega
    · next hδ =>
      cases hd : apply_stock_delta s.stock tx.medicine (q' - 0) with
      | error e => rw [hd] at h; simp at h
      | ok st =>
        rw [hd] at h
        simp only [Except.ok.injEq] at h
        subst h
        obtain ⟨hst, -⟩ := apply_stock_delta_ok _ _ _ _ hd
        intro m
        have hb := hinv m
        simp only [sumTxFor] at hb ⊢
        rw [hst m, sumBy_insertTbl, hold]
        simp only [optSum]
        by_cases hm : m = tx.medicine
        · subst hm; simp [← hb]
        · have h1 : ¬ tx.medicine = m := fun hc => hm hc.symm
          simp [hm, h1, ← hb]
  | some old =>
    simp only [hold] at h
    split at h
    · next hne =>
      cases hd1 : apply_stock_delta s.stock old.medicine (-old.quantity) with
      | error e => rw [hd1] at h; simp at h
      | ok st1 =>
        rw [hd1] at h
        dsimp only at h
        cases hd2 : apply_stock_delta st1 tx.medicine q' with
        | error e => rw [hd2] at h; simp at h
        | ok st2 =>
          rw [hd2] at h
          simp only [Except.ok.injEq] at h
          subst h
          obtain ⟨hst1, -⟩ := apply_stock_delta_ok _ _ _ _ hd1
          obtain ⟨hst2, -⟩ := apply_stock_delta_ok _ _ _ _ hd2
          intro m
          have hb := hinv m
          simp only [sumTxFor] at hb ⊢
          rw [hst2 m, sumBy_insertTbl, hold]
          simp only [optSum]
          by_cases hm1 : m = tx.medicine
          · subst hm1
            have h1 : ¬ tx.medicine = old.medicine := fun hc => hne hc.symm
            rw [hst1 tx.medicine]
            simp [hne, h1, ← hb]
          · by_cases hm2 : m = old.medicine
            · subst hm2
              have h1 : ¬ tx.medicine = old.medicine := fun hc => hm1 hc.symm
              rw [hst1 old.medicine]
              simp [hm1, h1, ← hb]
              omega
            · have h1 : ¬ tx.medicine = m := fun hc => hm1 hc.symm
              have h2 : ¬ old.medicine = m := fun hc => hm2 hc.symm
              rw [hst1 m]
              simp [hm1, hm2, h1, h2, ← hb]
    · next hne =>
      have heq : old.medicine = tx.medicine := by
        by_contra hc
        exact hne hc
      split at h
      · next hδ =>
        simp only [Except.ok.injEq] at h
        subst h
        intro m
        have hb := hinv m
        have hqeq : q' = old.quantity := by omega
        simp only [sumTxFor] at hb ⊢
        rw [sumBy_insertTbl, hold]
        simp only [optSum, heq, hqeq]
        by_cases hm : tx.medicine = m <;> simp [hm, ← hb]
      · next hδ =>
        cases hd : apply_stock_delta s.stock tx.medicine (q' - old.quantity) with
        | error e => rw [hd] at h; simp at h
        | ok st =>
          rw [hd] at h
          simp only [Except.ok.injEq] at h
          subst h
          obtain ⟨hst, -⟩ := apply_stock_delta_ok _ _ _ _ hd
          intro m
          have hb := hinv m
          simp only [sumTxFor] at hb ⊢
          rw [hst m, sumBy_insertTbl, hold]
          simp only [optSum, heq]
          by_cases hm : m = tx.medicine
          · subst hm
            simp [← hb]
            omega
          · have h1 : ¬ tx.medicine = m := fun hc => hm hc.symm
            simp [hm, h1, ← hb]

theorem stockInv_stockTransactionDelete (s : StockState) (txid : Nat)
    (s' : StockState) (hinv : stockInv s) (h : stockTransactionDelete s txid = .ok s') :
    stockInv s' := by
  unfold stockTransactionDelete at h
  cases hold : lookupTbl s.txs txid with
  | none =>
    simp only [hold, Except.ok.injEq] at h
    rw [← h]; exact hinv
  | some tx =>
    simp only [hold] at h
    split at h
    · next hz =>
      simp only [Except.ok.injEq] at h
      subst h
      intro m
      have hb := hinv m
      simp only [sumTxFor] at hb ⊢
      rw [sumBy_removeTbl, hold]
      simp only [optSum]
      by_cases hm : tx.medicine = m <;> simp [hm, hz, ← hb]
    · next hz =>
      cases hd : apply_stock_delta s.stock tx.medicine (-tx.quantity) with
      | error e => rw [hd] at h; simp at h
      | ok st =>
        rw [hd] at h
        simp only [Except.ok.injEq] at h
        subst h
        obtain ⟨hst, -⟩ := apply_stock_delta_ok _ _ _ _ hd
        intro m
        have hb := hinv m
        simp only [sumTxFor] at hb ⊢
        rw [hst m, sumBy_removeTbl, hold]
        simp only [optSum]
        by_cases hm : m = tx.medicine
        · subst hm
          simp [← hb]
          omega
        · have h1 : ¬ tx.medicine = m := fun hc => hm hc.symm
          simp [hm, h1, ← hb]

theorem stockInv_runStockOp (s : StockState) (op : StockOp)
    (hat : runsAtomically op = true) (hinv : stockInv s) :
    stockInv (runStockOp s op) := by
  cases op with
  | save txid tx =>
    unfold runStockOp
    cases h : stockTransactionSave s txid tx with
    | ok s' => simp only [h]; exact stockInv_stockTransactionSave s txid tx s' hinv h
    | error e => simp only [h]; exact hinv
  | createAutocommit txid tx => simp [runsAtomically] at hat
  | del txid =>
    unfold runStockOp
    cases h : stockTransactionDelete s txid with
    | ok s' => simp only [h]; exact stockInv_stockTransactionDelete s txid s' hinv h
    | error e => simp only [h]; exact hinv

theorem stockInv_runStockOps (ops : List StockOp) (s : StockState)
    (hat : ops.all runsAtomically = true) (hinv : stockInv s) :
    stockInv (runStockOps ops s) := by
  induction ops generalizing s with
  | nil => exact hinv
  | cons op rest ih =>
    simp only [List.all_cons, Bool.and_eq_true] at hat
    exact ih (runStockOp s op) hat.2 (stockInv_runStockOp s op hat.1 hinv)

/-!
Billing / payment / balance ledger — `core/models.py` `Bill`, `BillItem`,
`Payment`, `core/signals.py` `infer_billitem_defaults`, `billitem_deleted`,
and the orchestration in `core/views.py` (`finalize_bill_totals`,
`update_patient_balance_for_bill`, `service_bill_create`,
`service_bill_edit`; the pharmacy twins have identical ledger structure).
-/

/-- Kind discriminator of `BillItem.ITEM_KIND`; `none` models an unset
(blank) kind before `infer_billitem_defaults` runs. -/
inductive ItemKind where
  | service
  | pharmacy
deriving DecidableEq, Repr

/-- Row of the `bills` table (the ledger-relevant columns). -/
structure Bill where
  patient : Nat
  tax_amount : Int
  discount_amount : Int
  total_amount : Int
  paid_amount : Int
deriving DecidableEq, Repr

/-- Row of the `bill_items` table.  `total_price` is the persisted derived
column; `service`/`medicine` are the optional reference columns. -/
structure BillItem where
  bill : Nat
  kind : Option ItemKind
  service : Option Nat
  medicine : Option Nat
  quantity : Nat
  unit_price : Int
  total_price : Int
deriving DecidableEq, Repr

/-- Row of the `payments` table. -/
structure Payment where
  patient : Nat
  bill : Option Nat
  amount : Int
deriving DecidableEq, Repr

/-- Billing database state: the three tables plus the `balance` column of
`patients`, keyed by patient id and defaulting to `0`. -/
structure DBState where
  bills : List (Nat × Bill)
  items : List (Nat × BillItem)
  payments : List (Nat × Payment)
  balance : Nat → Int

/-- Empty billing database with every patient balance zero. -/
def initDB : DBState :=
  { bills := [], items := [], payments := [], balance := fun _ => 0 }

/-- Translation of `Bill.save`: pops `update_patient_balance` (default
`False`), detects a first save by pk existence, computes the balance delta
only when the flag is set (full total on create, new minus persisted total
on update), writes the row, and applies the delta to the patient's balance
only when the flag is set and the delta is nonzero. -/
def billSave (s : DBState) (bid : Nat) (b : Bill) (update_patient_balance : Bool) : DBState :=
  let creating := (lookupTbl s.bills bid).isNone
  let balance_delta : Int :=
    if update_patient_balance then
      if creating then b.total_amount
      else b.total_amount - (optSum (fun ob => ob.total_amount) (lookupTbl s.bills bid))
    else 0
  let s1 : DBState := { s with bills := insertTbl s.bills bid b }
  if update_patient_balance ∧ balance_delta ≠ 0 then
    { s1 with balance := bump s1.balance b.patient balance_delta }
  else s1

/-- Sum of `total_price` over the items of one bill
(`bill.items.aggregate(s=Sum('total_price'))`). -/
def sumItemsFor (items : List (Nat × BillItem)) (bid : Nat) : Int :=
  sumBy (fun it => if it.bill = bid then it.total_price else 0) items

/-- Translation of `Bill.recalculate(save=True)`: set `total_amount` to the
sum of the bill's items' `total_price` and persist through `Bill.save`
without the balance flag.  A missing bill is a no-op at the model level. -/
def recalculate (s : DBState) (bid : Nat) : DBState :=
  match lookupTbl s.bills bid with
  | none => s
  | some b => billSave s bid { b with total_amount := sumItemsFor s.items bid } false

/-- Kind inference of `infer_billitem_defaults` (pre-save signal): when the
kind is unset, a lone service reference infers `service` and a lone
medicine reference infers `pharmacy`; otherwise the kind is left as is. -/
def infer_billitem_kind (kind : Option ItemKind) (service medicine : Option Nat) :
    Option ItemKind :=
  match kind with
  | some k => some k
  | none =>
    if service.isSome ∧ medicine.isNone then some .service
    else if medicine.isSome ∧ service.isNone then some .pharmacy
    else none

/-- Stored form of a `BillItem` row after `BillItem.save` ran the pre-save
signal and the `total_price = unit_price × quantity` recompute. -/
def billItemRow (it : BillItem) : BillItem :=
  { it with
    total_price := it.unit_price * (it.quantity : Int)
    kind := infer_billitem_kind it.kind it.service it.medicine }

/-- Delta pushed by `BillItem.save` into the parent bill: the full new
`total_price` for a first save, else new minus persisted `total_price`. -/
def billItemDelta (items : List (Nat × BillItem)) (iid : Nat) (it : BillItem) : Int :=
  match lookupTbl items iid with
  | none => it.unit_price * (it.quantity : Int)
  | some old => it.unit_price * (it.quantity : Int) - old.total_price

/-- Translation of `BillItem.save`: recompute `total_price = unit_price ×
quantity`, compute the delta against the persisted `total_price` (the full
new total for a first save), push the delta into the parent bill's
`total_amount` through `Bill.save` with no balance update, then persist the
row (with `infer_billitem_defaults` applied to the kind by the pre-save
signal).  A dangling parent bill leaves the bills table untouched. -/
def billItemSave (s : DBState) (iid : Nat) (it : BillItem) : DBState :=
  let s1 : DBState :=
    match lookupTbl s.bills it.bill with
    | none => s
    | some b =>
      billSave s it.bill
        { b with total_amount := b.total_amount + billItemDelta s.items iid it } false
  { s1 with items := insertTbl s1.items iid (billItemRow it) }

/-- Translation of `BillItem.delete` plus the `billitem_deleted` post-delete
signal: subtract the item's `total_price` from the parent bill through
`Bill.save` with no balance update, remove the row, then recompute the
parent bill's total from its remaining items (`bill.recalculate(save=True)`).
A missing row is a no-op. -/
def billItemDelete (s : DBState) (iid : Nat) : DBState :=
  match lookupTbl s.items iid with
  | none => s
  | some it =>
    let s1 : DBState :=
      match lookupTbl s.bills it.bill with
      | none => s
      | some b => billSave s it.bill { b with total_amount := b.total_amount - it.total_price } false
    let s2 : DBState := { s1 with items := removeTbl s1.items iid }
    recalculate s2 it.bill

/-- Translation of `Payment.save`: detect a first save by pk existence,
read the persisted amount (0 on create), persist the row, then decrement
the patient's balance by `new amount − old amount` when nonzero. -/
def paymentSave (s : DBState) (pid : Nat) (p : Payment) : DBState :=
  let old_amount : Int := optSum (fun op => op.amount) (lookupTbl s.payments pid)
  let delta := p.amount - old_amount
  let s1 : DBState := { s with payments := insertTbl s.payments pid p }
  if delta ≠ 0 then { s1 with balance := bump s1.balance p.patient (-delta) } else s1

/-- Translation of `Payment.delete`: add the in-memory instance's `amount`
back to the instance's patient balance (skipped when the amount is zero),
then remove the row with the instance's pk.  The instance (`inst`) is
passed separately from the table so that a stale in-memory copy is
representable, exactly as in the source where `self.amount` is whatever the
Python object holds. -/
def paymentDelete (s : DBState) (pid : Nat) (inst : Payment) : DBState :=
  let s1 : DBState :=
    if inst.amount ≠ 0 then { s with balance := bump s.balance inst.patient inst.amount } else s
  { s1 with payments := removeTbl s1.payments pid }

/-- Translation of `finalize_bill_totals`: re-sum the bill's items, add
`tax_amount`, subtract `discount_amount`, and persist the new
`total_amount` (no balance update). -/
def finalize_bill_totals (s : DBState) (bid : Nat) : DBState :=
  match lookupTbl s.bills bid with
  | none => s
  | some b =>
    let subtotal := sumItemsFor s.items bid
    let final_total := subtotal + b.tax_amount - b.discount_amount
    billSave s bid { b with total_amount := final_total } false

/-- Translation of `update_patient_balance_for_bill`: for a new bill, add
the bill's `total_amount` to the patient balance only when it is strictly
positive; for an update the function is a pass (views handle the delta). -/
def update_patient_balance_for_bill (s : DBState) (bid : Nat) (is_new : Bool) : DBState :=
  match lookupTbl s.bills bid with
  | none => s
  | some b =>
    if is_new ∧ 0 < b.total_amount then
      { s with balance := bump s.balance b.patient b.total_amount }
    else s

/-- Persist `bill.paid_amount` (`bill.save(update_fields=['paid_amount'])`,
which goes through `Bill.save` without the balance flag). -/
def billSetPaid (s : DBState) (bid : Nat) (paid : Int) : DBState :=
  match lookupTbl s.bills bid with
  | none => s
  | some b => billSave s bid { b with paid_amount := paid } false

/-- Line-item mutation issued by a bill edit's inline formset (the formset
is bound to one bill, so every save targets that bill and deletes touch
only that bill's rows). -/
inductive ItemOp where
  | save (iid : Nat) (it : BillItem)
  | del (iid : Nat)

/-- Apply one formset line-item mutation for bill `bid`: a save forces the
item's bill to `bid` (inline formset binding); a delete removes only rows
belonging to `bid`. -/
def applyItemOp (bid : Nat) (s : DBState) : ItemOp → DBState
  | .save iid it => billItemSave s iid { it with bill := bid }
  | .del iid =>
    match lookupTbl s.items iid with
    | some it => if it.bill = bid then billItemDelete s iid else s
    | none => s

/-- Translation of the successful POST path of `service_bill_create` (and
`pharmacy_bill_create`, identical ledger-wise): save the bill header with
zero totals, save each non-empty formset item (forced onto the new bill),
finalize the totals, apply the new bill's total to the patient balance,
persist `paid_amount`, and record a single payment when `paid > 0`.  An
empty item list rolls the whole transaction back. -/
def service_bill_create (s : DBState) (bid patient : Nat) (tax disc : Int)
    (itemSpecs : List (Nat × BillItem)) (paid : Int) (payId : Nat) : DBState :=
  if itemSpecs.isEmpty then s
  else
    let s1 := billSave s bid
      { patient := patient, tax_amount := tax, discount_amount := disc,
        total_amount := 0, paid_amount := 0 } false
    let s2 := itemSpecs.foldl
      (fun st e => billItemSave st e.1 { e.2 with bill := bid, kind := some .service }) s1
    let s3 := finalize_bill_totals s2 bid
    let s4 := update_patient_balance_for_bill s3 bid true
    let s5 := billSetPaid s4 bid paid
    if 0 < paid then
      paymentSave s5 payId { patient := patient, bill := some bid, amount := paid }
    else s5

/-- Primary keys of the payments attached to one bill
(`bill.payments.all()`). -/
def paymentIdsFor (payments : List (Nat × Payment)) (bid : Nat) : List Nat :=
  (payments.filter (fun e => e.2.bill = some bid)).map (fun e => e.1)

/-- Delete one payment by pk after loading it fresh from the table, the way
`for p in bill.payments.all(): p.delete()` does. -/
def paymentDeleteFresh (s : DBState) (pid : Nat) : DBState :=
  match lookupTbl s.payments pid with
  | some p => paymentDelete s pid p
  | none => s

/-- Translation of the successful POST path of `service_bill_edit` (and
`pharmacy_bill_edit`): remember the old total, save the header (patient,
tax, discount and the form's `paid_amount` — no balance update), run the
formset's item mutations, finalize totals, push `new_total − old_total`
into the patient balance, delete the bill's payments one by one, persist
`paid_amount`, and recreate a single payment when `new_paid > 0`.  A
missing bill is the 404 branch, a no-op. -/
def service_bill_edit (s : DBState) (bid newPatient : Nat) (tax disc : Int)
    (ops : List ItemOp) (newPaid : Int) (payId : Nat) : DBState :=
  match lookupTbl s.bills bid with
  | none => s
  | some bill0 =>
    let old_total := bill0.total_amount
    let s1 := billSave s bid
      { bill0 with patient := newPatient, tax_amount := tax, discount_amount := disc,
                   paid_amount := newPaid } false
    let s2 := ops.foldl (applyItemOp bid) s1
    let s3 := finalize_bill_totals s2 bid
    let new_total := optSum (fun b => b.total_amount) (lookupTbl s3.bills bid)
    let total_delta := new_total - old_total
    let s4 :=
      if total_delta ≠ 0 then { s3 with balance := bump s3.balance newPatient total_delta }
      else s3
    let s5 := (paymentIdsFor s4.payments bid).foldl paymentDeleteFresh s4
    let s6 := billSetPaid s5 bid newPaid
    if 0 < newPaid then
      paymentSave s6 payId { patient := newPatient, bill := some bid, amount := newPaid }
    else s6

/-- Operation of the billing orchestration: bill creation, bill edit (both
carrying their item mutations), and direct payment create/delete. -/
inductive BillingOp where
  | create (bid patient : Nat) (tax disc : Int) (itemSpecs : List (Nat × BillItem))
      (paid : Int) (payId : Nat)
  | edit (bid newPatient : Nat) (tax disc : Int) (ops : List ItemOp)
      (newPaid : Int) (payId : Nat)
  | payCreate (payId patient : Nat) (bill : Option Nat) (amount : Int)
  | payDelete (payId : Nat)

/-- Run one billing orchestration operation. -/
def runBillingOp (s : DBState) : BillingOp → DBState
  | .create bid patient tax disc itemSpecs paid payId =>
    service_bill_create s bid patient tax disc itemSpecs paid payId
  | .edit bid newPatient tax disc ops newPaid payId =>
    service_bill_edit s bid newPatient tax disc ops newPaid payId
  | .payCreate payId patient bill amount =>
    paymentSave s payId { patient := patient, bill := bill, amount := amount }
  | .payDelete payId => paymentDeleteFresh s payId

/-- Run a sequence of billing operations from the empty database. -/
def runBilling (ops : List BillingOp) : DBState :=
  ops.foldl runBillingOp initDB

/-- Sum of `total_amount` over a patient's bills. -/
def sumBillTotalsFor (bills : List (Nat × Bill)) (p : Nat) : Int :=
  sumBy (fun b => if b.patient = p then b.total_amount else 0) bills

/-- Sum of `amount` over a patient's payments. -/
def sumPaymentsFor (payments : List (Nat × Payment)) (p : Nat) : Int :=
  sumBy (fun pay => if pay.patient = p then pay.amount else 0) payments

/-- Reconciliation invariant: every patient's balance equals the sum of the
patient's bill totals minus the sum of the patient's payment amounts. -/
def reconciled (s : DBState) : Prop :=
  ∀ p, s.balance p = sumBillTotalsFor s.bills p - sumPaymentsFor s.payments p

/-- Persisted `total_amount` of a bill, `0` when the bill is absent. -/
def billTotalOf (s : DBState) (bid : Nat) : Int :=
  optSum (fun b => b.total_amount) (lookupTbl s.bills bid)

/-- Side conditions under which one orchestration operation is run the way
the application runs it: creates use fresh primary keys (the source
generates UUIDs) and produce a nonnegative finalized total, and edits do
not reassign the bill to a different patient. -/
def opSafe (s : DBState) : BillingOp → Bool
  | .create bid patient tax disc itemSpecs paid payId =>
    (lookupTbl s.bills bid).isNone && (lookupTbl s.payments payId).isNone &&
      decide (0 ≤ billTotalOf (service_bill_create s bid patient tax disc itemSpecs paid payId) bid)
  | .edit bid newPatient _ _ _ _ payId =>
    (match lookupTbl s.bills bid with
     | some b => decide (b.patient = newPatient)
     | none => true) &&
      (lookupTbl s.payments payId).isNone
  | .payCreate payId _ _ _ => (lookupTbl s.payments payId).isNone
  | .payDelete _ => true

/-- Safety of a whole operation sequence, checked against the running
state. -/
def opsSafe : DBState → List BillingOp → Bool
  | _, [] => true
  | s, op :: rest => opSafe s op && opsSafe (runBillingOp s op) rest

theorem lookupTbl_removeTbl_of_none {α : Type} (tbl : List (Nat × α)) (k k' : Nat)
    (h : lookupTbl tbl k = none) : lookupTbl (removeTbl tbl k') k = none := by
  induction tbl with
  | nil => simp [removeTbl, lookupTbl]
  | cons e rest ih =>
    by_cases he : e.1 = k'
    · simp only [lookupTbl] at h
      split at h
      · simp at h
      · simp [removeTbl, he, h]
    · simp only [lookupTbl] at h ⊢
      split at h
      · simp at h
      · next hk =>
        simp [removeTbl, he, lookupTbl, hk]
        exact ih h

theorem billSave_false (s : DBState) (bid : Nat) (b : Bill) :
    billSave s bid b false = { s with bills := insertTbl s.bills bid b } := by
  simp [billSave]

theorem billItemSave_eq (s : DBState) (iid : Nat) (it : BillItem) (b : Bill)
    (hb : lookupTbl s.bills it.bill = some b) :
    billItemSave s iid it =
      { s with
          bills := insertTbl s.bills it.bill
            ({ b with total_amount := b.total_amount + billItemDelta s.items iid it }),
          items := insertTbl s.items iid (billItemRow it) } := by
  simp [billItemSave, hb, billSave_false]

theorem billItemSave_eq_dangling (s : DBState) (iid : Nat) (it : BillItem)
    (hb : lookupTbl s.bills it.bill = none) :
    billItemSave s iid it = { s with items := insertTbl s.items iid (billItemRow it) } := by
  simp [billItemSave, hb]

theorem recalculate_eq (s : DBState) (bid : Nat) (b : Bill)
    (hb : lookupTbl s.bills bid = some b) :
    recalculate s bid =
      { s with
          bills := insertTbl s.bills bid
            ({ b with total_amount := sumItemsFor s.items bid }) } := by
  simp [recalculate, hb, billSave_false]

theorem finalize_bill_totals_eq (s : DBState) (bid : Nat) (b : Bill)
    (hb : lookupTbl s.bills bid = some b) :
    finalize_bill_totals s bid =
      { s with
          bills := insertTbl s.bills bid
            ({ b with
                total_amount := sumItemsFor s.items bid + b.tax_amount - b.discount_amount }) } := by
  simp [finalize_bill_totals, hb, billSave_false]

theorem billSetPaid_eq (s : DBState) (bid : Nat) (paid : Int) (b : Bill)
    (hb : lookupTbl s.bills bid = some b) :
    billSetPaid s bid paid =
      { s with bills := insertTbl s.bills bid { b with paid_amount := paid } } := by
  simp [billSetPaid, hb, billSave_false]

theorem paymentSave_fresh (s : DBState) (pid : Nat) (p : Payment)
    (hfresh : lookupTbl s.payments pid = none) (hamt : p.amount ≠ 0) :
    paymentSave s pid p =
      { s with payments := insertTbl s.payments pid p,
               balance := bump s.balance p.patient (-p.amount) } := by
  simp [paymentSave, hfresh, optSum, hamt]

theorem paymentSave_fresh_zero (s : DBState) (pid : Nat) (p : Payment)
    (hfresh : lookupTbl s.payments pid = none) (hamt : p.amount = 0) :
    paymentSave s pid p = { s with payments := insertTbl s.payments pid p } := by
  simp [paymentSave, hfresh, optSum, hamt]

theorem billItemDelete_eq (s : DBState) (iid : Nat) (it : BillItem) (b : Bill)
    (hit : lookupTbl s.items iid = some it) (hb : lookupTbl s.bills it.bill = some b) :
    billItemDelete s iid =
      { s with
          bills := insertTbl s.bills it.bill
            ({ b with total_amount := sumItemsFor (removeTbl s.items iid) it.bill }),
          items := removeTbl s.items iid } := by
  simp only [billItemDelete, hit, hb, billSave_false, recalculate, lookupTbl_insertTbl_self,
    insertTbl_insertTbl_self]

theorem applyItemOp_effect (bid : Nat) (base : List (Nat × Bill)) (s : DBState) (b : Bill)
    (op : ItemOp) (hb : s.bills = insertTbl base bid b) :
    ∃ b', (applyItemOp bid s op).bills = insertTbl base bid b' ∧
      b'.patient = b.patient ∧ b'.tax_amount = b.tax_amount ∧
      b'.discount_amount = b.discount_amount ∧
      (applyItemOp bid s op).balance = s.balance ∧
      (applyItemOp bid s op).payments = s.payments := by
  cases op with
  | save iid it =>
    have hlook : lookupTbl s.bills bid = some b := by
      rw [hb]; exact lookupTbl_insertTbl_self base bid b
    refine ⟨{ b with total_amount :=
        b.total_amount + billItemDelta s.items iid { it with bill := bid } }, ?_, rfl, rfl, rfl, ?_, ?_⟩
    · simp only [applyItemOp, billItemSave_eq s iid { it with bill := bid } b hlook]
      rw [hb, insertTbl_insertTbl_self]
    · simp only [applyItemOp, billItemSave_eq s iid { it with bill := bid } b hlook]
    · simp only [applyItemOp, billItemSave_eq s iid { it with bill := bid } b hlook]
  | del iid =>
    cases hit : lookupTbl s.items iid with
    | none => exact ⟨b, by simp [applyItemOp, hit, hb], rfl, rfl, rfl, by simp [applyItemOp, hit],
        by simp [applyItemOp, hit]⟩
    | some it =>
      by_cases hbl : it.bill = bid
      · have hlook : lookupTbl s.bills it.bill = some b := by
          rw [hbl, hb]; exact lookupTbl_insertTbl_self base bid b
        have hred : applyItemOp bid s (.del iid) = billItemDelete s iid := by
          simp [applyItemOp, hit, hbl]
        refine ⟨{ b with total_amount := sumItemsFor (removeTbl s.items iid) it.bill },
          ?_, rfl, rfl, rfl, ?_, ?_⟩ <;>
          rw [hred, billItemDelete_eq s iid it b hit hlook]
        rw [hbl, hb, insertTbl_insertTbl_self]
      · exact ⟨b, by simp [applyItemOp, hit, hbl, hb], rfl, rfl, rfl,
          by simp [applyItemOp, hit, hbl], by simp [applyItemOp, hit, hbl]⟩

theorem itemFold_effect (bid : Nat) (base : List (Nat × Bill)) (ops : List ItemOp) :
    ∀ (s : DBState) (b : Bill), s.bills = insertTbl base bid b →
      ∃ b', (ops.foldl (applyItemOp bid) s).bills = insertTbl base bid b' ∧
        b'.patient = b.patient ∧ b'.tax_amount = b.tax_amount ∧
        b'.discount_amount = b.discount_amount ∧
        (ops.foldl (applyItemOp bid) s).balance = s.balance ∧
        (ops.foldl (applyItemOp bid) s).payments = s.payments := by
  induction ops with
  | nil =>
    intro s b hb
    exact ⟨b, hb, rfl, rfl, rfl, rfl, rfl⟩
  | cons op rest ih =>
    intro s b hb
    obtain ⟨b1, h1, hp1, ht1, hd1, hbal1, hpay1⟩ := applyItemOp_effect bid base s b op hb
    obtain ⟨b2, h2, hp2, ht2, hd2, hbal2, hpay2⟩ := ih (applyItemOp bid s op) b1 h1
    exact ⟨b2, h2, hp2.trans hp1, ht2.trans ht1, hd2.trans hd1,
      hbal2.trans hbal1, hpay2.trans hpay1⟩

theorem createFold_eq (bid : Nat) (specs : List (Nat × BillItem)) :
    ∀ st : DBState,
      specs.foldl
        (fun st e => billItemSave st e.1 { e.2 with bill := bid, kind := some .service }) st
      = (specs.map (fun e => ItemOp.save e.1 { e.2 with kind := some .service })).foldl
          (applyItemOp bid) st := by
  induction specs with
  | nil => intro st; rfl
  | cons e rest ih =>
    intro st
    simp only [List.foldl_cons, List.map_cons]
    rw [ih]
    rfl

theorem reconciled_paymentSave_fresh (s : DBState) (pid : Nat) (p : Payment)
    (hfresh : lookupTbl s.payments pid = none) (h : reconciled s) :
    reconciled (paymentSave s pid p) := by
  by_cases hz : p.amount = 0
  · rw [paymentSave_fresh_zero s pid p hfresh hz]
    intro q
    have hq := h q
    simp only [sumBillTotalsFor, sumPaymentsFor] at hq ⊢
    rw [sumBy_insertTbl, hfresh]
    simp only [optSum, hz]
    simp [hq]
  · rw [paymentSave_fresh s pid p hfresh hz]
    intro q
    have hq := h q
    simp only [sumBillTotalsFor, sumPaymentsFor] at hq ⊢
    rw [sumBy_insertTbl, hfresh]
    simp only [optSum]
    by_cases hqp : q = p.patient
    · subst hqp
      rw [bump_self]
      simp [hq]
      ring
    · rw [bump_ne _ _ _ _ hqp]
      have : ¬ p.patient = q := fun hc => hqp hc.symm
      simp [this, hq]

theorem paymentDelete_eq_zero (s : DBState) (pid : Nat) (inst : Payment)
    (hz : inst.amount = 0) :
    paymentDelete s pid inst = { s with payments := removeTbl s.payments pid } := by
  simp [paymentDelete, hz]

theorem paymentDelete_eq_pos (s : DBState) (pid : Nat) (inst : Payment)
    (hz : inst.amount ≠ 0) :
    paymentDelete s pid inst =
      { s with payments := removeTbl s.payments pid,
               balance := bump s.balance inst.patient inst.amount } := by
  simp [paymentDelete, hz]

theorem reconciled_paymentDeleteFresh (s : DBState) (pid : Nat) (h : reconciled s) :
    reconciled (paymentDeleteFresh s pid) := by
  unfold paymentDeleteFresh
  cases hlook : lookupTbl s.payments pid with
  | none => exact h
  | some p0 =>
    dsimp only
    by_cases hz : p0.amount = 0
    · rw [paymentDelete_eq_zero s pid p0 hz]
      intro q
      have hq := h q
      simp only [sumBillTotalsFor, sumPaymentsFor] at hq ⊢
      rw [sumBy_removeTbl, hlook]
      simp only [optSum, hz]
      simp [hq]
    · rw [paymentDelete_eq_pos s pid p0 hz]
      intro q
      have hq := h q
      simp only [sumBillTotalsFor, sumPaymentsFor] at hq ⊢
      rw [sumBy_removeTbl, hlook]
      simp only [optSum]
      by_cases hqp : q = p0.patient
      · subst hqp
        rw [bump_self]
        simp [hq]
        ring
      · rw [bump_ne _ _ _ _ hqp]
        have : ¬ p0.patient = q := fun hc => hqp hc.symm
        simp [this, hq]

theorem payLoop_effect (pids : List Nat) :
    ∀ s : DBState,
      (pids.foldl paymentDeleteFresh s).bills = s.bills ∧
      (∀ k, lookupTbl s.payments k = none →
        lookupTbl (pids.foldl paymentDeleteFresh s).payments k = none) ∧
      (reconciled s → reconciled (pids.foldl paymentDeleteFresh s)) := by
  induction pids with
  | nil => intro s; exact ⟨rfl, fun _ hk => hk, fun h => h⟩
  | cons pid rest ih =>
    intro s
    obtain ⟨hbills, hfresh, hrec⟩ := ih (paymentDeleteFresh s pid)
    have hstep_bills : (paymentDeleteFresh s pid).bills = s.bills := by
      unfold paymentDeleteFresh
      cases hlook : lookupTbl s.payments pid with
      | none => rfl
      | some p0 =>
        dsimp only
        by_cases hz : p0.amount = 0
        · rw [paymentDelete_eq_zero s pid p0 hz]
        · rw [paymentDelete_eq_pos s pid p0 hz]
    have hstep_fresh : ∀ k, lookupTbl s.payments k = none →
        lookupTbl (paymentDeleteFresh s pid).payments k = none := by
      intro k hk
      unfold paymentDeleteFresh
      cases hlook : lookupTbl s.payments pid with
      | none => exact hk
      | some p0 =>
        dsimp only
        by_cases hz : p0.amount = 0
        · rw [paymentDelete_eq_zero s pid p0 hz]
          exact lookupTbl_removeTbl_of_none _ _ _ hk
        · rw [paymentDelete_eq_pos s pid p0 hz]
          exact lookupTbl_removeTbl_of_none _ _ _ hk
    refine ⟨hbills.trans hstep_bills, ?_, ?_⟩
    · intro k hk
      exact hfresh k (hstep_fresh k hk)
    · intro h
      exact hrec (reconciled_paymentDeleteFresh s pid h)

theorem reconciled_billSetPaid (s : DBState) (bid : Nat) (paid : Int) (h : reconciled s) :
    reconciled (billSetPaid s bid paid) := by
  unfold billSetPaid
  cases hlook : lookupTbl s.bills bid with
  | none => exact h
  | some b =>
    dsimp only
    rw [billSave_false]
    intro q
    have hq := h q
    simp only [sumBillTotalsFor, sumPaymentsFor] at hq ⊢
    rw [sumBy_insertTbl, hlook]
    simp only [optSum]
    simp [hq]

theorem update_pb_eq (s : DBState) (bid : Nat) (b : Bill)
    (hb : lookupTbl s.bills bid = some b) :
    update_patient_balance_for_bill s bid true =
      if 0 < b.total_amount then
        { s with balance := bump s.balance b.patient b.total_amount }
      else s := by
  simp [update_patient_balance_for_bill, hb]

theorem update_pb_bills (s : DBState) (bid : Nat) (b : Bill)
    (hb : lookupTbl s.bills bid = some b) :
    (update_patient_balance_for_bill s bid true).bills = s.bills := by
  rw [update_pb_eq s bid b hb]; split <;> rfl

theorem update_pb_payments (s : DBState) (bid : Nat) (b : Bill)
    (hb : lookupTbl s.bills bid = some b) :
    (update_patient_balance_for_bill s bid true).payments = s.payments := by
  rw [update_pb_eq s bid b hb]; split <;> rfl

theorem update_pb_balance (s : DBState) (bid : Nat) (b : Bill)
    (hb : lookupTbl s.bills bid = some b) (p : Nat) :
    (update_patient_balance_for_bill s bid true).balance p =
      s.balance p + (if 0 < b.total_amount ∧ p = b.patient then b.total_amount else 0) := by
  rw [update_pb_eq s bid b hb]
  split
  · next hpos =>
    show bump s.balance b.patient b.total_amount p = _
    by_cases hp : p = b.patient
    · subst hp; rw [bump_self]; simp [hpos]
    · rw [bump_ne _ _ _ _ hp]; simp [hp]
  · next hpos => simp [hpos]

theorem paymentSave_bills (s : DBState) (pid : Nat) (p : Payment) :
    (paymentSave s pid p).bills = s.bills := by
  unfold paymentSave
  dsimp only
  split <;> rfl

theorem service_bill_create_effect (s : DBState) (bid patient : Nat) (tax disc paid : Int)
    (specs : List (Nat × BillItem)) (payId : Nat)
    (hpay : lookupTbl s.payments payId = none)
    (hne : specs ≠ []) :
    ∃ B : Bill,
      (service_bill_create s bid patient tax disc specs paid payId).bills
          = insertTbl s.bills bid B ∧
      B.patient = patient ∧
      (∀ p, (service_bill_create s bid patient tax disc specs paid payId).balance p
          = s.balance p + (if 0 < B.total_amount ∧ p = patient then B.total_amount else 0)
            - (if 0 < paid ∧ p = patient then paid else 0)) ∧
      (∀ p, sumPaymentsFor (service_bill_create s bid patient tax disc specs paid payId).payments p
          = sumPaymentsFor s.payments p + (if 0 < paid ∧ patient = p then paid else 0)) := by
  have hemp : specs.isEmpty = false := by
    cases specs with
    | nil => exact absurd rfl hne
    | cons a l => rfl
  simp only [service_bill_create, hemp, Bool.false_eq_true, if_false, billSave_false,
    createFold_eq]
  obtain ⟨b2, hb2, hp2, ht2, hd2, hbal2, hpay2⟩ :=
    itemFold_effect bid s.bills
      (specs.map (fun e => ItemOp.save e.1 { e.2 with kind := some .service }))
      { s with
          bills := insertTbl s.bills bid
            ({ patient := patient, tax_amount := tax, discount_amount := disc,
               total_amount := 0, paid_amount := 0 }) }
      { patient := patient, tax_amount := tax, discount_amount := disc,
        total_amount := 0, paid_amount := 0 }
      rfl
  generalize hF : List.foldl (applyItemOp bid)
      { s with
          bills := insertTbl s.bills bid
            ({ patient := patient, tax_amount := tax, discount_amount := disc,
               total_amount := 0, paid_amount := 0 }) }
      (specs.map (fun e => ItemOp.save e.1 { e.2 with kind := some .service })) = F
    at hb2 hbal2 hpay2 ⊢
  have hbal2' : F.balance = s.balance := hbal2
  have hpay2' : F.payments = s.payments := hpay2
  have hlookF : lookupTbl F.bills bid = some b2 := by
    rw [hb2]; exact lookupTbl_insertTbl_self s.bills bid b2
  rw [finalize_bill_totals_eq F bid b2 hlookF]
  set T := sumItemsFor F.items bid + b2.tax_amount - b2.discount_amount with hTdef
  set b3 : Bill := { b2 with total_amount := T } with hb3
  set S3 : DBState := { F with bills := insertTbl F.bills bid b3 } with hS3
  have hlook3 : lookupTbl S3.bills bid = some b3 := lookupTbl_insertTbl_self F.bills bid b3
  set U := update_patient_balance_for_bill S3 bid true with hU
  have hUbills : U.bills = S3.bills := update_pb_bills S3 bid b3 hlook3
  have hUpayments : U.payments = s.payments := by
    rw [update_pb_payments S3 bid b3 hlook3]
    exact hpay2'
  have hUbalance : ∀ p, U.balance p =
      s.balance p + (if 0 < T ∧ p = patient then T else 0) := by
    intro p
    rw [update_pb_balance S3 bid b3 hlook3 p]
    show F.balance p + _ = _
    rw [hbal2']
    have hb3p : b3.patient = patient := hp2
    have hb3t : b3.total_amount = T := rfl
    rw [hb3p, hb3t]
  have hlook4 : lookupTbl U.bills bid = some b3 := by rw [hUbills]; exact hlook3
  rw [billSetPaid_eq U bid paid b3 hlook4]
  set b5 : Bill := { b3 with paid_amount := paid } with hb5
  set S5 : DBState := { U with bills := insertTbl U.bills bid b5 } with hS5
  have hS5bills : S5.bills = insertTbl s.bills bid b5 := by
    show insertTbl U.bills bid b5 = _
    rw [hUbills]
    show insertTbl (insertTbl F.bills bid b3) bid b5 = _
    rw [insertTbl_insertTbl_self, hb2, insertTbl_insertTbl_self]
  have hS5payments : S5.payments = s.payments := hUpayments
  have hS5balance : ∀ p, S5.balance p =
      s.balance p + (if 0 < T ∧ p = patient then T else 0) := hUbalance
  have hb5t : b5.total_amount = T := rfl
  have hb5p : b5.patient = patient := hp2
  by_cases hpd : 0 < paid
  · rw [if_pos hpd]
    have hfresh5 : lookupTbl S5.payments payId = none := by rw [hS5payments]; exact hpay
    have hamt : ({ patient := patient, bill := some bid, amount := paid } : Payment).amount ≠ 0 := by
      show paid ≠ 0
      omega
    rw [paymentSave_fresh S5 payId _ hfresh5 hamt]
    refine ⟨b5, ?_, hb5p, ?_, ?_⟩
    · show S5.bills = _
      exact hS5bills
    · intro p
      show bump S5.balance patient (-paid) p = _
      rw [hb5t]
      by_cases hp : p = patient
      · subst hp
        rw [bump_self, hS5balance p]
        simp [hpd]
        ring
      · rw [bump_ne _ _ _ _ hp, hS5balance p]
        simp [hp]
    · intro p
      show sumPaymentsFor (insertTbl S5.payments payId _) p = _
      simp only [sumPaymentsFor]
      rw [sumBy_insertTbl, hS5payments, hpay]
      simp only [optSum]
      by_cases hp : patient = p <;> simp [hp, hpd]
  · rw [if_neg hpd]
    refine ⟨b5, hS5bills, hb5p, ?_, ?_⟩
    · intro p
      rw [hb5t, hS5balance p]
      simp [hpd]
    · intro p
      rw [hS5payments]
      simp [hpd]


theorem reconciled_create (s : DBState) (bid patient : Nat) (tax disc paid : Int)
    (specs : List (Nat × BillItem)) (payId : Nat)
    (h : reconciled s)
    (hsafe : opSafe s (.create bid patient tax disc specs paid payId) = true) :
    reconciled (service_bill_create s bid patient tax disc specs paid payId) := by
  simp only [opSafe, Bool.and_eq_true, Option.isNone_iff_eq_none, decide_eq_true_eq] at hsafe
  obtain ⟨⟨hbid, hpay⟩, hT⟩ := hsafe
  by_cases hne : specs = []
  · subst hne
    simpa [service_bill_create] using h
  · obtain ⟨B, hBbills, hBpat, hBbal, hBpay⟩ :=
      service_bill_create_effect s bid patient tax disc paid specs payId hpay hne
    have hTB : 0 ≤ B.total_amount := by
      have hbt : billTotalOf (service_bill_create s bid patient tax disc specs paid payId) bid
          = B.total_amount := by
        unfold billTotalOf
        rw [hBbills, lookupTbl_insertTbl_self]
        rfl
      rw [hbt] at hT
      exact hT
    intro p
    have hq := h p
    have hSb : sumBillTotalsFor (service_bill_create s bid patient tax disc specs paid payId).bills p
        = sumBillTotalsFor s.bills p + (if B.patient = p then B.total_amount else 0) := by
      simp only [sumBillTotalsFor]
      rw [hBbills, sumBy_insertTbl, hbid]
      simp only [optSum]
      ring
    rw [hBbal p, hSb, hBpay p, hBpat]
    by_cases hp : p = patient
    · subst hp
      simp only [if_pos rfl, and_true]
      rcases lt_or_eq_of_le hTB with hlt | heq
      · rw [if_pos hlt]
        by_cases hpd : 0 < paid <;> simp [hpd] <;> omega
      · rw [if_neg (by omega)]
        by_cases hpd : 0 < paid <;> simp [hpd] <;> omega
    · have hp' : ¬ patient = p := fun hc => hp hc.symm
      simp only [hp, hp', and_false, if_false]
      omega

theorem billSetPaid_payments (s : DBState) (bid : Nat) (paid : Int) :
    (billSetPaid s bid paid).payments = s.payments := by
  unfold billSetPaid
  cases lookupTbl s.bills bid with
  | none => rfl
  | some b =>
    dsimp only
    rw [billSave_false]

theorem reconciled_edit (s : DBState) (bid newPatient : Nat) (tax disc : Int)
    (ops : List ItemOp) (newPaid : Int) (payId : Nat)
    (h : reconciled s)
    (hsafe : opSafe s (.edit bid newPatient tax disc ops newPaid payId) = true) :
    reconciled (service_bill_edit s bid newPatient tax disc ops newPaid payId) := by
  simp only [opSafe, Bool.and_eq_true, Option.isNone_iff_eq_none] at hsafe
  obtain ⟨hpat, hpayfresh⟩ := hsafe
  cases hlook : lookupTbl s.bills bid with
  | none =>
    simp only [service_bill_edit, hlook]
    exact h
  | some bill0 =>
    rw [hlook] at hpat
    have hpatient : bill0.patient = newPatient := by simpa using hpat
    simp only [service_bill_edit, hlook]
    obtain ⟨b2, hb2, hp2, ht2, hd2, hbal2, hpay2⟩ :=
      itemFold_effect bid s.bills ops
        { s with
            bills := insertTbl s.bills bid
              ({ bill0 with
                  patient := newPatient, tax_amount := tax, discount_amount := disc,
                  paid_amount := newPaid }) }
        ({ bill0 with
            patient := newPatient, tax_amount := tax, discount_amount := disc,
            paid_amount := newPaid })
        rfl
    rw [billSave_false]
    generalize hF : List.foldl (applyItemOp bid)
        { s with
            bills := insertTbl s.bills bid
              ({ bill0 with
                  patient := newPatient, tax_amount := tax, discount_amount := disc,
                  paid_amount := newPaid }) }
        ops = F at hb2 hbal2 hpay2 ⊢
    have hbal2' : F.balance = s.balance := hbal2
    have hpay2' : F.payments = s.payments := hpay2
    have hp2' : b2.patient = newPatient := hp2
    have hlookF : lookupTbl F.bills bid = some b2 := by
      rw [hb2]; exact lookupTbl_insertTbl_self s.bills bid b2
    rw [finalize_bill_totals_eq F bid b2 hlookF]
    set T := sumItemsFor F.items bid + b2.tax_amount - b2.discount_amount with hT
    set b3 : Bill := { b2 with total_amount := T } with hb3
    set S3 : DBState := { F with bills := insertTbl F.bills bid b3 } with hS3
    have hnew : optSum (fun b => b.total_amount) (lookupTbl S3.bills bid) = T := by
      show optSum _ (lookupTbl (insertTbl F.bills bid b3) bid) = T
      rw [lookupTbl_insertTbl_self]
      rfl
    rw [hnew]
    have hS3bills : S3.bills = insertTbl s.bills bid b3 := by
      show insertTbl F.bills bid b3 = _
      rw [hb2, insertTbl_insertTbl_self]
    have hS3bal : ∀ q, S3.balance q = s.balance q := by
      intro q
      show F.balance q = _
      rw [hbal2']
    have hS3pay : S3.payments = s.payments := hpay2'
    have hb3pat : b3.patient = newPatient := hp2'
    have hb3tot : b3.total_amount = T := rfl
    set S4 : DBState :=
      if T - bill0.total_amount ≠ 0 then
        { S3 with balance := bump S3.balance newPatient (T - bill0.total_amount) }
      else S3 with hS4
    have hS4bills : S4.bills = insertTbl s.bills bid b3 := by
      rw [hS4]
      split <;> exact hS3bills
    have hS4pay : S4.payments = s.payments := by
      rw [hS4]
      split
      · exact hS3pay
      · exact hS3pay
    have hS4bal : ∀ q, S4.balance q =
        s.balance q + (if q = newPatient then T - bill0.total_amount else 0) := by
      intro q
      rw [hS4]
      split
      · next hd =>
        show bump S3.balance newPatient (T - bill0.total_amount) q = _
        by_cases hqn : q = newPatient
        · subst hqn
          rw [bump_self, hS3bal q]
          simp
        · rw [bump_ne _ _ _ _ hqn, hS3bal q]
          simp [hqn]
      · next hd =>
        rw [hS3bal q]
        have hd0 : T - bill0.total_amount = 0 := by omega
        simp [hd0]
    have hrecon4 : reconciled S4 := by
      intro q
      have hq := h q
      have hSb : sumBillTotalsFor S4.bills q = sumBillTotalsFor s.bills q
          - (if bill0.patient = q then bill0.total_amount else 0)
          + (if b3.patient = q then T else 0) := by
        simp only [sumBillTotalsFor]
        rw [hS4bills, sumBy_insertTbl, hlook]
        simp only [optSum, hb3tot]
      have hSp : sumPaymentsFor S4.payments q = sumPaymentsFor s.payments q := by
        simp only [sumPaymentsFor]
        rw [hS4pay]
      rw [hS4bal q, hSb, hSp, hb3pat, hpatient]
      by_cases hqn : q = newPatient
      · subst hqn
        simp only [if_pos rfl, eq_self_iff_true, if_true]
        omega
      · have hqn' : ¬ newPatient = q := fun hc => hqn hc.symm
        simp only [hqn, hqn', if_false]
        omega
    obtain ⟨hLbills, hLfresh, hLrec⟩ := payLoop_effect (paymentIdsFor S4.payments bid) S4
    have hrec5 : reconciled (List.foldl paymentDeleteFresh S4 (paymentIdsFor S4.payments bid)) :=
      hLrec hrecon4
    have hfresh5 : lookupTbl
        (List.foldl paymentDeleteFresh S4 (paymentIdsFor S4.payments bid)).payments payId
        = none := by
      refine hLfresh payId ?_
      rw [hS4pay]
      exact hpayfresh
    have hrec6 : reconciled (billSetPaid
        (List.foldl paymentDeleteFresh S4 (paymentIdsFor S4.payments bid)) bid newPaid) :=
      reconciled_billSetPaid _ bid newPaid hrec5
    have hfresh6 : lookupTbl (billSetPaid
        (List.foldl paymentDeleteFresh S4 (paymentIdsFor S4.payments bid)) bid
        newPaid).payments payId = none := by
      rw [billSetPaid_payments]
      exact hfresh5
    by_cases hpd : 0 < newPaid
    · rw [if_pos hpd]
      exact reconciled_paymentSave_fresh _ payId _ hfresh6 hrec6
    · rw [if_neg hpd]
      exact hrec6


theorem reconciled_runBillingOp (s : DBState) (op : BillingOp)
    (h : reconciled s) (hsafe : opSafe s op = true) :
    reconciled (runBillingOp s op) := by
  cases op with
  | create bid patient tax disc specs paid payId =>
    exact reconciled_create s bid patient tax disc paid specs payId h hsafe
  | edit bid newPatient tax disc ops newPaid payId =>
    exact reconciled_edit s bid newPatient tax disc ops newPaid payId h hsafe
  | payCreate payId patient bill amount =>
    simp only [opSafe, Option.isNone_iff_eq_none] at hsafe
    exact reconciled_paymentSave_fresh s payId _ hsafe h
  | payDelete payId =>
    exact reconciled_paymentDeleteFresh s payId h

theorem reconciled_runBilling_from (ops : List BillingOp) :
    ∀ s : DBState, reconciled s → opsSafe s ops = true →
      reconciled (ops.foldl runBillingOp s) := by
  induction ops with
  | nil => intro s h _; exact h
  | cons op rest ih =>
    intro s h hsafe
    simp only [opsSafe, Bool.and_eq_true] at hsafe
    exact ih (runBillingOp s op) (reconciled_runBillingOp s op h hsafe.1) hsafe.2

theorem removeTbl_insertTbl_fresh {α : Type} (tbl : List (Nat × α)) (k : Nat) (v : α)
    (h : lookupTbl tbl k = none) : removeTbl (insertTbl tbl k v) k = tbl := by
  induction tbl with
  | nil => simp [insertTbl, removeTbl]
  | cons e rest ih =>
    simp only [lookupTbl] at h
    split at h
    · simp at h
    · next hk =>
      simp [insertTbl, removeTbl, hk, ih h]

theorem stockSave_effect_changed (s : StockState) (txid : Nat) (tx : StockTx)
    (old : StockTx) (s' : StockState)
    (hold : lookupTbl s.txs txid = some old)
    (h : stockTransactionSave s txid tx = .ok s')
    (hne : old.medicine ≠ tx.medicine) :
    s'.stock old.medicine = s.stock old.medicine - old.quantity ∧
    s'.stock tx.medicine =
      s.stock tx.medicine + normalize_quantity_sign tx.transaction_type tx.quantity := by
  unfold stockTransactionSave at h
  simp only [hold] at h
  rw [if_pos hne] at h
  cases hd1 : apply_stock_delta s.stock old.medicine (-old.quantity) with
  | error e => rw [hd1] at h; simp at h
  | ok st1 =>
    rw [hd1] at h
    dsimp only at h
    cases hd2 : apply_stock_delta st1 tx.medicine
        (normalize_quantity_sign tx.transaction_type tx.quantity) with
    | error e => rw [hd2] at h; simp at h
    | ok st2 =>
      rw [hd2] at h
      simp only [Except.ok.injEq] at h
      subst h
      obtain ⟨hst1, -⟩ := apply_stock_delta_ok _ _ _ _ hd1
      obtain ⟨hst2, -⟩ := apply_stock_delta_ok _ _ _ _ hd2
      constructor
      · show st2 old.medicine = _
        rw [hst2 old.medicine]
        have hom : ¬ old.medicine = tx.medicine := hne
        rw [if_neg hom, hst1 old.medicine, if_pos rfl]
        ring
      · show st2 tx.medicine = _
        rw [hst2 tx.medicine, if_pos rfl, hst1 tx.medicine,
          if_neg (fun hc => hne hc.symm)]

theorem stockDelete_effect (s : StockState) (txid : Nat) (tx : StockTx) (s' : StockState)
    (hold : lookupTbl s.txs txid = some tx)
    (h : stockTransactionDelete s txid = .ok s') :
    s'.stock tx.medicine = s.stock tx.medicine - tx.quantity := by
  unfold stockTransactionDelete at h
  simp only [hold] at h
  split at h
  · next hz =>
    simp only [Except.ok.injEq] at h
    subst h
    show s.stock tx.medicine = _
    rw [hz]
    ring
  · next hz =>
    cases hd : apply_stock_delta s.stock tx.medicine (-tx.quantity) with
    | error e => rw [hd] at h; simp at h
    | ok st =>
      rw [hd] at h
      simp only [Except.ok.injEq] at h
      subst h
      obtain ⟨hst, -⟩ := apply_stock_delta_ok _ _ _ _ hd
      show st tx.medicine = _
      rw [hst tx.medicine, if_pos rfl]
      ring

/-- Claim C2 (code bug at the create endpoint): for every medicine, after
any sequence of stock-transaction saves and deletes whose failures roll
back — every operation of the transaction-wrapped endpoints —
`current_quantity` equals the sum of the stored quantities of the
transactions currently referring to that medicine, with a
medicine-changing update applying `−old_quantity` to the old medicine and
the full new quantity to the new one, and a delete applying `−quantity`.
The non-atomic `stock_tx_create` endpoint breaks the invariant on a
failing create: with stock 7, creating `expired 10` raises the
insufficient-stock error only after the row (normalized to −10) has been
committed, leaving `current_quantity` 7 against a transaction sum of −3. -/
theorem c2_stock_reconciliation_bug :
    (∀ ops : List StockOp, ops.all runsAtomically = true →
      stockInv (runStockOps ops initStock)) ∧
    (∀ (s : StockState) (txid : Nat) (tx old : StockTx) (s' : StockState),
      lookupTbl s.txs txid = some old →
      stockTransactionSave s txid tx = .ok s' →
      old.medicine ≠ tx.medicine →
      s'.stock old.medicine = s.stock old.medicine - old.quantity ∧
      s'.stock tx.medicine =
        s.stock tx.medicine + normalize_quantity_sign tx.transaction_type tx.quantity) ∧
    (∀ (s : StockState) (txid : Nat) (tx : StockTx) (s' : StockState),
      lookupTbl s.txs txid = some tx →
      stockTransactionDelete s txid = .ok s' →
      s'.stock tx.medicine = s.stock tx.medicine - tx.quantity) ∧
    (stockTransactionSave (runStockOps [.save 1 ⟨1, .purchase, 7⟩] initStock) 2
        ⟨1, .expired, 10⟩ = .error ⟨1, -3⟩ ∧
     lookupTbl (runStockOps [.save 1 ⟨1, .purchase, 7⟩, .createAutocommit 2 ⟨1, .expired, 10⟩]
        initStock).txs 2 = some ⟨1, .expired, -10⟩ ∧
     (runStockOps [.save 1 ⟨1, .purchase, 7⟩, .createAutocommit 2 ⟨1, .expired, 10⟩]
        initStock).stock 1 = 7 ∧
     sumTxFor (runStockOps [.save 1 ⟨1, .purchase, 7⟩, .createAutocommit 2 ⟨1, .expired, 10⟩]
        initStock).txs 1 = -3 ∧
     ¬ stockInv (runStockOps [.save 1 ⟨1, .purchase, 7⟩, .createAutocommit 2 ⟨1, .expired, 10⟩]
        initStock)) := by
  refine ⟨?_, ?_, ?_, rfl, by decide, by decide, by decide, ?_⟩
  · intro ops hat
    exact stockInv_runStockOps ops initStock hat (fun m => rfl)
  · intro s txid tx old s' hold h hne
    exact stockSave_effect_changed s txid tx old s' hold h hne
  · intro s txid tx s' hold h
    exact stockDelete_effect s txid tx s' hold h
  · intro hinv
    exact absurd (hinv 1) (by decide)

/-- Claim C2 witness: the atomic-sequence invariant on a concrete
purchase, the medicine-reassignment effect, and the delete reversal, each
with its hypotheses discharged on concrete inputs. -/
theorem c2_stock_reconciliation_bug_witness :
    ([StockOp.save 1 ⟨1, .purchase, 5⟩].all runsAtomically = true ∧
     stockInv (runStockOps [.save 1 ⟨1, .purchase, 5⟩] initStock)) ∧
    ((runStockOp (runStockOps [.save 1 ⟨1, .purchase, 5⟩] initStock)
        (.save 1 ⟨2, .purchase, 3⟩)).stock 1
      = (runStockOps [.save 1 ⟨1, .purchase, 5⟩] initStock).stock 1 - 5 ∧
     (runStockOp (runStockOps [.save 1 ⟨1, .purchase, 5⟩] initStock)
        (.save 1 ⟨2, .purchase, 3⟩)).stock 2
      = (runStockOps [.save 1 ⟨1, .purchase, 5⟩] initStock).stock 2
        + normalize_quantity_sign .purchase 3) ∧
    (runStockOp (runStockOps [.save 1 ⟨1, .purchase, 5⟩] initStock)
        (.del 1)).stock 1
      = (runStockOps [.save 1 ⟨1, .purchase, 5⟩] initStock).stock 1 - 5 := by
  refine ⟨⟨by decide, c2_stock_reconciliation_bug.1 [.save 1 ⟨1, .purchase, 5⟩] (by decide)⟩,
    ?_, ?_⟩
  · exact c2_stock_reconciliation_bug.2.1
      (runStockOps [.save 1 ⟨1, .purchase, 5⟩] initStock) 1
      ⟨2, .purchase, 3⟩ ⟨1, .purchase, 5⟩
      (runStockOp (runStockOps [.save 1 ⟨1, .purchase, 5⟩] initStock)
        (.save 1 ⟨2, .purchase, 3⟩))
      (by decide) rfl (by decide)
  · exact c2_stock_reconciliation_bug.2.2.1
      (runStockOps [.save 1 ⟨1, .purchase, 5⟩] initStock) 1
      ⟨1, .purchase, 5⟩
      (runStockOp (runStockOps [.save 1 ⟨1, .purchase, 5⟩] initStock) (.del 1))
      (by decide) rfl

/-- Claim C4: a stock delta that would drive `current_quantity` negative
fails with `InsufficientStockError` carrying the would-be quantity (never a
silent clamp), a successful delta is applied exactly, and in the concrete
scenario a sale of 10 against a stock of 7 errors and leaves the stock at
7. -/
theorem c4_insufficient_stock :
    (∀ (st : Nat → Int) (m : Nat) (δ : Int),
      st m + δ < 0 → apply_stock_delta st m δ = .error ⟨m, st m + δ⟩) ∧
    (∀ (st : Nat → Int) (m : Nat) (δ : Int) (st' : Nat → Int),
      apply_stock_delta st m δ = .ok st' →
      st' m = st m + δ ∧ (∀ m', m' ≠ m → st' m' = st m') ∧ 0 ≤ st m + δ) ∧
    ((runStockOps [.save 1 ⟨1, .purchase, 7⟩] initStock).stock 1 = 7 ∧
     stockTransactionSave (runStockOps [.save 1 ⟨1, .purchase, 7⟩] initStock) 2
        ⟨1, .sale, 10⟩ = .error ⟨1, -3⟩ ∧
     runStockOp (runStockOps [.save 1 ⟨1, .purchase, 7⟩] initStock)
        (.save 2 ⟨1, .sale, 10⟩)
       = runStockOps [.save 1 ⟨1, .purchase, 7⟩] initStock) := by
  refine ⟨?_, ?_, by decide, rfl, rfl⟩
  · intro st m δ hlt
    simp [apply_stock_delta, hlt]
  · intro st m δ st' h
    obtain ⟨hst, hge⟩ := apply_stock_delta_ok st m δ st' h
    refine ⟨by rw [hst m, if_pos rfl], ?_, hge⟩
    intro m' hm'
    rw [hst m', if_neg hm']

/-- Claim C4 witness: the universal parts applied at a stock of 7 under a
delta of −10 (failure) and −3 (success). -/
theorem c4_insufficient_stock_witness :
    ((runStockOps [.save 1 ⟨1, .purchase, 7⟩] initStock).stock 1 + (-10) < 0 ∧
      apply_stock_delta (runStockOps [.save 1 ⟨1, .purchase, 7⟩] initStock).stock 1 (-10)
        = .error ⟨1, (runStockOps [.save 1 ⟨1, .purchase, 7⟩] initStock).stock 1 + (-10)⟩) ∧
    ((fun m' => if m' = 1 then
          (runStockOps [.save 1 ⟨1, .purchase, 7⟩] initStock).stock 1 + (-3)
        else (runStockOps [.save 1 ⟨1, .purchase, 7⟩] initStock).stock m') 1
      = (runStockOps [.save 1 ⟨1, .purchase, 7⟩] initStock).stock 1 + (-3)) := by
  constructor
  · refine ⟨by decide, ?_⟩
    exact c4_insufficient_stock.1
      (runStockOps [.save 1 ⟨1, .purchase, 7⟩] initStock).stock 1 (-10) (by decide)
  · exact (c4_insufficient_stock.2.1
      (runStockOps [.save 1 ⟨1, .purchase, 7⟩] initStock).stock 1 (-3)
      (fun m' => if m' = 1 then
          (runStockOps [.save 1 ⟨1, .purchase, 7⟩] initStock).stock 1 + (-3)
        else (runStockOps [.save 1 ⟨1, .purchase, 7⟩] initStock).stock m')
      rfl).1

theorem stockSave_stores_normalized (s : StockState) (txid : Nat) (tx : StockTx)
    (s' : StockState) (h : stockTransactionSave s txid tx = .ok s') :
    lookupTbl s'.txs txid =
      some { tx with quantity := normalize_quantity_sign tx.transaction_type tx.quantity } := by
  unfold stockTransactionSave at h
  cases hold : lookupTbl s.txs txid with
  | none =>
    simp only [hold] at h
    split at h
    · simp only [Except.ok.injEq] at h
      subst h
      exact lookupTbl_insertTbl_self s.txs txid _
    · cases hd : apply_stock_delta s.stock tx.medicine
          (normalize_quantity_sign tx.transaction_type tx.quantity - 0) with
      | error e => rw [hd] at h; simp at h
      | ok st =>
        rw [hd] at h
        simp only [Except.ok.injEq] at h
        subst h
        exact lookupTbl_insertTbl_self s.txs txid _
  | some old =>
    simp only [hold] at h
    split at h
    · next hne =>
      cases hd1 : apply_stock_delta s.stock old.medicine (-old.quantity) with
      | error e => rw [hd1] at h; simp at h
      | ok st1 =>
        rw [hd1] at h
        dsimp only at h
        cases hd2 : apply_stock_delta st1 tx.medicine
            (normalize_quantity_sign tx.transaction_type tx.quantity) with
        | error e => rw [hd2] at h; simp at h
        | ok st2 =>
          rw [hd2] at h
          simp only [Except.ok.injEq] at h
          subst h
          exact lookupTbl_insertTbl_self s.txs txid _
    · next hne =>
      split at h
      · simp only [Except.ok.injEq] at h
        subst h
        exact lookupTbl_insertTbl_self s.txs txid _
      · cases hd : apply_stock_delta s.stock tx.medicine
            (normalize_quantity_sign tx.transaction_type tx.quantity - old.quantity) with
        | error e => rw [hd] at h; simp at h
        | ok st =>
          rw [hd] at h
          simp only [Except.ok.injEq] at h
          subst h
          exact lookupTbl_insertTbl_self s.txs txid _

/-- Claim C6: on every stock-transaction save the stored quantity is
coerced to the sign implied by the transaction type — `purchase` and
`return` to the absolute value, `sale`, `expired` and `damaged` to the
negated absolute value, `adjustment` unchanged — and the persisted row
carries exactly that coerced quantity. -/
theorem c6_sign_normalization :
    (∀ q : Int,
      normalize_quantity_sign .purchase q = (q.natAbs : Int) ∧
      normalize_quantity_sign .ret q = (q.natAbs : Int) ∧
      normalize_quantity_sign .sale q = -(q.natAbs : Int) ∧
      normalize_quantity_sign .expired q = -(q.natAbs : Int) ∧
      normalize_quantity_sign .damaged q = -(q.natAbs : Int) ∧
      normalize_quantity_sign .adjustment q = q) ∧
    (∀ (s : StockState) (txid : Nat) (tx : StockTx) (s' : StockState),
      stockTransactionSave s txid tx = .ok s' →
      lookupTbl s'.txs txid =
        some { tx with quantity := normalize_quantity_sign tx.transaction_type tx.quantity }) := by
  constructor
  · intro q
    exact ⟨rfl, rfl, rfl, rfl, rfl, rfl⟩
  · intro s txid tx s' h
    exact stockSave_stores_normalized s txid tx s' h

/-- Claim C6 witness: a purchase entered with quantity −3 is stored with
the coerced quantity +3. -/
theorem c6_sign_normalization_witness :
    lookupTbl (runStockOp initStock (.save 1 ⟨1, .purchase, -3⟩)).txs 1
      = some ⟨1, .purchase, 3⟩ := by
  have hok : stockTransactionSave initStock 1 ⟨1, .purchase, -3⟩
      = .ok (runStockOp initStock (.save 1 ⟨1, .purchase, -3⟩)) := by rfl
  have h := c6_sign_normalization.2 initStock 1 ⟨1, .purchase, -3⟩
    (runStockOp initStock (.save 1 ⟨1, .purchase, -3⟩)) hok
  simpa using h

/-- Claim C1 counterexample: two orchestration sequences break the
reconciliation invariant as stated — a bill created with discount 200
against a 100 subtotal finalizes to total −100 which
`update_patient_balance_for_bill` skips (only positive totals are applied),
and an edit that reassigns the bill to patient 1 moves the bill total
without moving the balance. -/
theorem c1_counterexample :
    ¬ reconciled (runBilling
      [.create 0 0 0 200 [(10, ⟨0, some .service, some 1, none, 1, 100, 0⟩)] 0 1]) ∧
    ¬ reconciled (runBilling
      [.create 0 0 0 0 [(10, ⟨0, some .service, some 1, none, 1, 100, 0⟩)] 0 1,
       .edit 0 1 0 0 [] 0 2]) := by
  constructor
  · intro hrec
    exact absurd (hrec 0) (by decide)
  · intro hrec
    exact absurd (hrec 0) (by decide)

/-- Claim C1 (amended): for every sequence of orchestration operations in
which creates use fresh primary keys and finalize to a nonnegative total
and edits keep the bill's patient, every patient's balance equals the sum
of the patient's bill totals minus the sum of the patient's payments. -/
theorem c1_reconciliation_amended (ops : List BillingOp)
    (hsafe : opsSafe initDB ops = true) :
    reconciled (runBilling ops) :=
  reconciled_runBilling_from ops initDB (fun _ => rfl) hsafe

/-- Claim C1 witness: the scenario of §8.6 run through the orchestration
satisfies the safety side conditions and reconciles. -/
theorem c1_reconciliation_amended_witness :
    opsSafe initDB
      [.create 0 0 50 0 [(10, ⟨0, some .service, some 1, none, 2, 500, 0⟩)] 400 1] = true ∧
    reconciled (runBilling
      [.create 0 0 50 0 [(10, ⟨0, some .service, some 1, none, 2, 500, 0⟩)] 400 1]) :=
  ⟨by decide, c1_reconciliation_amended
    [.create 0 0 50 0 [(10, ⟨0, some .service, some 1, none, 2, 500, 0⟩)] 400 1]
    (by decide)⟩

/-- Claim C7: the concrete billing scenario — balance 0, service bill,
item 500 × 2 gives item total 1000 and bill total 1000, finalize with tax
50 and discount 0 gives 1050, the balance update gives 1050, and a payment
of 400 gives 650; the full `service_bill_create` orchestration ends at the
same balance. -/
theorem c7_billing_scenario :
    ((lookupTbl (billItemSave (billSave initDB 0 ⟨0, 50, 0, 0, 0⟩ false) 10
          ⟨0, some .service, some 1, none, 2, 500, 0⟩).items 10).map
        (fun it => it.total_price) = some 1000) ∧
    billTotalOf (billItemSave (billSave initDB 0 ⟨0, 50, 0, 0, 0⟩ false) 10
        ⟨0, some .service, some 1, none, 2, 500, 0⟩) 0 = 1000 ∧
    billTotalOf (finalize_bill_totals
        (billItemSave (billSave initDB 0 ⟨0, 50, 0, 0, 0⟩ false) 10
          ⟨0, some .service, some 1, none, 2, 500, 0⟩) 0) 0 = 1050 ∧
    (update_patient_balance_for_bill
        (finalize_bill_totals
          (billItemSave (billSave initDB 0 ⟨0, 50, 0, 0, 0⟩ false) 10
            ⟨0, some .service, some 1, none, 2, 500, 0⟩) 0) 0 true).balance 0 = 1050 ∧
    (paymentSave
        (update_patient_balance_for_bill
          (finalize_bill_totals
            (billItemSave (billSave initDB 0 ⟨0, 50, 0, 0, 0⟩ false) 10
              ⟨0, some .service, some 1, none, 2, 500, 0⟩) 0) 0 true)
        1 ⟨0, some 0, 400⟩).balance 0 = 650 ∧
    (service_bill_create initDB 0 0 50 0
        [(10, ⟨0, some .service, some 1, none, 2, 500, 0⟩)] 400 1).balance 0 = 650 := by
  refine ⟨by decide, by decide, by decide, by decide, by decide, by decide⟩

/-- Claim C3 counterexample: on a bill finalized with tax 50 (total 1050,
one item of 1000), `recalculate` sets `total_amount` to the bare item sum
1000, not item sum + tax − discount = 1050: `Bill.recalculate` omits the
header adjustments. -/
theorem c3_counterexample :
    billTotalOf (recalculate (service_bill_create initDB 0 0 50 0
        [(10, ⟨0, some .service, some 1, none, 2, 500, 0⟩)] 0 1) 0) 0 = 1000 ∧
    sumItemsFor (recalculate (service_bill_create initDB 0 0 50 0
        [(10, ⟨0, some .service, some 1, none, 2, 500, 0⟩)] 0 1) 0).items 0 = 1000 ∧
    optSum (fun b => b.tax_amount)
        (lookupTbl (recalculate (service_bill_create initDB 0 0 50 0
          [(10, ⟨0, some .service, some 1, none, 2, 500, 0⟩)] 0 1) 0).bills 0) = 50 ∧
    optSum (fun b => b.discount_amount)
        (lookupTbl (recalculate (service_bill_create initDB 0 0 50 0
          [(10, ⟨0, some .service, some 1, none, 2, 500, 0⟩)] 0 1) 0).bills 0) = 0 ∧
    billTotalOf (recalculate (service_bill_create initDB 0 0 50 0
        [(10, ⟨0, some .service, some 1, none, 2, 500, 0⟩)] 0 1) 0) 0
      ≠ 1000 + 50 - 0 := by
  refine ⟨by decide, by decide, by decide, by decide, by decide⟩

/-- Claim C3 (amended): immediately after `finalize_bill_totals` the bill's
`total_amount` equals the item sum plus `tax_amount` minus
`discount_amount`; immediately after `recalculate` it equals the bare item
sum (header adjustments are not included). -/
theorem c3_totals_amended (s : DBState) (bid : Nat) (b : Bill)
    (hb : lookupTbl s.bills bid = some b) :
    billTotalOf (finalize_bill_totals s bid) bid
      = sumItemsFor s.items bid + b.tax_amount - b.discount_amount ∧
    billTotalOf (recalculate s bid) bid = sumItemsFor s.items bid := by
  constructor
  · rw [finalize_bill_totals_eq s bid b hb]
    unfold billTotalOf
    show optSum _ (lookupTbl (insertTbl s.bills bid _) bid) = _
    rw [lookupTbl_insertTbl_self]
    rfl
  · rw [recalculate_eq s bid b hb]
    unfold billTotalOf
    show optSum _ (lookupTbl (insertTbl s.bills bid _) bid) = _
    rw [lookupTbl_insertTbl_self]
    rfl

/-- Claim C3 witness: the amended statement checked on the §8.6 bill. -/
theorem c3_totals_amended_witness :
    billTotalOf (finalize_bill_totals (service_bill_create initDB 0 0 50 0
        [(10, ⟨0, some .service, some 1, none, 2, 500, 0⟩)] 0 1) 0) 0
      = sumItemsFor (service_bill_create initDB 0 0 50 0
          [(10, ⟨0, some .service, some 1, none, 2, 500, 0⟩)] 0 1).items 0 + 50 - 0 ∧
    billTotalOf (recalculate (service_bill_create initDB 0 0 50 0
        [(10, ⟨0, some .service, some 1, none, 2, 500, 0⟩)] 0 1) 0) 0
      = sumItemsFor (service_bill_create initDB 0 0 50 0
          [(10, ⟨0, some .service, some 1, none, 2, 500, 0⟩)] 0 1).items 0 :=
  c3_totals_amended (service_bill_create initDB 0 0 50 0
      [(10, ⟨0, some .service, some 1, none, 2, 500, 0⟩)] 0 1) 0
    ⟨0, 50, 0, 1050, 0⟩ (by decide)

theorem c5_payment_roundtrip (s : DBState) (pid : Nat) (pay : Payment)
    (hfresh : lookupTbl s.payments pid = none) (q : Nat) :
    (paymentDeleteFresh (paymentSave s pid pay) pid).balance q = s.balance q := by
  have hlook : lookupTbl (paymentSave s pid pay).payments pid = some pay := by
    by_cases hz : pay.amount = 0
    · rw [paymentSave_fresh_zero s pid pay hfresh hz]
      exact lookupTbl_insertTbl_self s.payments pid pay
    · rw [paymentSave_fresh s pid pay hfresh hz]
      exact lookupTbl_insertTbl_self s.payments pid pay
  unfold paymentDeleteFresh
  simp only [hlook]
  by_cases hz : pay.amount = 0
  · rw [paymentDelete_eq_zero _ pid pay hz, paymentSave_fresh_zero s pid pay hfresh hz]
  · rw [paymentDelete_eq_pos _ pid pay hz, paymentSave_fresh s pid pay hfresh hz]
    show bump (bump s.balance pay.patient (-pay.amount)) pay.patient pay.amount q = _
    by_cases hq : q = pay.patient
    · subst hq
      rw [bump_self, bump_self]
      ring
    · rw [bump_ne _ _ _ _ hq, bump_ne _ _ _ _ hq]

theorem c5_stock_roundtrip (s : StockState) (txid : Nat) (tx : StockTx) (s' : StockState)
    (hfresh : lookupTbl s.txs txid = none) (hpos : ∀ m, 0 ≤ s.stock m)
    (h : stockTransactionSave s txid tx = .ok s') :
    ∃ s'', stockTransactionDelete s' txid = .ok s'' ∧ ∀ m, s''.stock m = s.stock m := by
  unfold stockTransactionSave at h
  simp only [hfresh] at h
  split at h
  · next hz =>
    simp only [Except.ok.injEq] at h
    subst h
    have hz0 : normalize_quantity_sign tx.transaction_type tx.quantity = 0 := by omega
    refine ⟨⟨removeTbl (insertTbl s.txs txid
        ⟨tx.medicine, tx.transaction_type,
          normalize_quantity_sign tx.transaction_type tx.quantity⟩) txid, s.stock⟩,
      ?_, fun m => rfl⟩
    unfold stockTransactionDelete
    simp only [lookupTbl_insertTbl_self]
    simp [hz0]
  · next hz =>
    cases hd : apply_stock_delta s.stock tx.medicine
        (normalize_quantity_sign tx.transaction_type tx.quantity - 0) with
    | error e => rw [hd] at h; simp at h
    | ok st =>
      rw [hd] at h
      simp only [Except.ok.injEq] at h
      subst h
      obtain ⟨hst, hge⟩ := apply_stock_delta_ok _ _ _ _ hd
      have hz' : ¬ normalize_quantity_sign tx.transaction_type tx.quantity = 0 := by omega
      have hmed : st tx.medicine
          = s.stock tx.medicine + (normalize_quantity_sign tx.transaction_type tx.quantity - 0) := by
        rw [hst tx.medicine, if_pos rfl]
      have hnoneg : ¬ (st tx.medicine
          + -(normalize_quantity_sign tx.transaction_type tx.quantity) < 0) := by
        have := hpos tx.medicine
        omega
      refine ⟨⟨removeTbl (insertTbl s.txs txid
          ⟨tx.medicine, tx.transaction_type,
            normalize_quantity_sign tx.transaction_type tx.quantity⟩) txid,
          fun m' => if m' = tx.medicine then
              st tx.medicine + -(normalize_quantity_sign tx.transaction_type tx.quantity)
            else st m'⟩, ?_, ?_⟩
      · unfold stockTransactionDelete
        simp only [lookupTbl_insertTbl_self]
        rw [if_neg hz']
        unfold apply_stock_delta
        simp only [if_neg hnoneg]
      · intro m
        by_cases hm : m = tx.medicine
        · subst hm
          show (if tx.medicine = tx.medicine then
              st tx.medicine + -(normalize_quantity_sign tx.transaction_type tx.quantity)
            else st tx.medicine) = s.stock tx.medicine
          rw [if_pos rfl]
          omega
        · show (if m = tx.medicine then _ else st m) = s.stock m
          rw [if_neg hm, hst m, if_neg hm]

theorem c5_billitem_roundtrip (s : DBState) (iid : Nat) (it : BillItem) (b : Bill)
    (hfresh : lookupTbl s.items iid = none)
    (hb : lookupTbl s.bills it.bill = some b)
    (hsum : b.total_amount = sumItemsFor s.items it.bill) :
    billTotalOf (billItemDelete (billItemSave s iid it) iid) it.bill = b.total_amount := by
  rw [billItemSave_eq s iid it b hb]
  have hlooki : lookupTbl (insertTbl s.items iid (billItemRow it)) iid
      = some (billItemRow it) :=
    lookupTbl_insertTbl_self s.items iid (billItemRow it)
  have hlookb : lookupTbl (insertTbl s.bills it.bill
        ({ b with total_amount := b.total_amount + billItemDelta s.items iid it }))
        (billItemRow it).bill
      = some ({ b with total_amount := b.total_amount + billItemDelta s.items iid it }) :=
    lookupTbl_insertTbl_self s.bills it.bill _
  rw [billItemDelete_eq _ iid (billItemRow it) _ hlooki hlookb]
  unfold billTotalOf
  show optSum _ (lookupTbl (insertTbl (insertTbl s.bills it.bill _) (billItemRow it).bill _)
      it.bill) = _
  rw [show (billItemRow it).bill = it.bill from rfl, insertTbl_insertTbl_self,
    lookupTbl_insertTbl_self]
  show sumItemsFor (removeTbl (insertTbl s.items iid (billItemRow it)) iid) it.bill = _
  rw [removeTbl_insertTbl_fresh s.items iid (billItemRow it) hfresh]
  exact hsum.symm


/-- Claim C5 counterexample: on a bill finalized with tax 50 (total 150),
creating a 50-unit item and immediately deleting it leaves `total_amount`
at 100, not the pre-create 150 — the delete-triggered `recalculate` resets
the total to the bare item sum, dropping the header tax. -/
theorem c5_counterexample :
    billTotalOf (service_bill_create initDB 0 0 50 0
        [(10, ⟨0, some .service, some 1, none, 1, 100, 0⟩)] 0 1) 0 = 150 ∧
    billTotalOf (billItemDelete (billItemSave (service_bill_create initDB 0 0 50 0
        [(10, ⟨0, some .service, some 1, none, 1, 100, 0⟩)] 0 1) 11
        ⟨0, some .service, some 1, none, 1, 50, 0⟩) 11) 0 = 100 ∧
    billTotalOf (billItemDelete (billItemSave (service_bill_create initDB 0 0 50 0
        [(10, ⟨0, some .service, some 1, none, 1, 100, 0⟩)] 0 1) 11
        ⟨0, some .service, some 1, none, 1, 50, 0⟩) 11) 0
      ≠ billTotalOf (service_bill_create initDB 0 0 50 0
        [(10, ⟨0, some .service, some 1, none, 1, 100, 0⟩)] 0 1) 0 := by
  refine ⟨by decide, by decide, by decide⟩

/-- Claim C5 (amended): create-then-delete symmetry holds unconditionally
for payments (balance restored for every patient) and for stock
transactions whose create succeeds (quantities restored, delete succeeds);
for bill items it holds exactly when the pre-create `total_amount` already
equals the bill's item sum — the delete path ends in a full `recalculate`,
so the post-delete total is the bare item sum. -/
theorem c5_delta_symmetry_amended :
    (∀ (s : DBState) (pid : Nat) (pay : Payment),
      lookupTbl s.payments pid = none →
      ∀ q, (paymentDeleteFresh (paymentSave s pid pay) pid).balance q = s.balance q) ∧
    (∀ (s : StockState) (txid : Nat) (tx : StockTx) (s' : StockState),
      lookupTbl s.txs txid = none → (∀ m, 0 ≤ s.stock m) →
      stockTransactionSave s txid tx = .ok s' →
      ∃ s'', stockTransactionDelete s' txid = .ok s'' ∧ ∀ m, s''.stock m = s.stock m) ∧
    (∀ (s : DBState) (iid : Nat) (it : BillItem) (b : Bill),
      lookupTbl s.items iid = none →
      lookupTbl s.bills it.bill = some b →
      b.total_amount = sumItemsFor s.items it.bill →
      billTotalOf (billItemDelete (billItemSave s iid it) iid) it.bill = b.total_amount) := by
  refine ⟨?_, ?_, ?_⟩
  · intro s pid pay hfresh q
    exact c5_payment_roundtrip s pid pay hfresh q
  · intro s txid tx s' hfresh hpos h
    exact c5_stock_roundtrip s txid tx s' hfresh hpos h
  · intro s iid it b hfresh hb hsum
    exact c5_billitem_roundtrip s iid it b hfresh hb hsum

/-- Claim C5 witness: the three amended parts at concrete inputs — a 100
payment created and voided on an empty database, a purchase of 5 created
and deleted on an empty stock ledger, and a 50-unit item created and
deleted on a tax-free bill whose total equals its item sum. -/
theorem c5_delta_symmetry_amended_witness :
    (paymentDeleteFresh (paymentSave initDB 1 ⟨0, none, 100⟩) 1).balance 0
      = initDB.balance 0 ∧
    (∃ s'', stockTransactionDelete
        (runStockOp initStock (.save 1 ⟨1, .purchase, 5⟩)) 1 = .ok s'' ∧
      ∀ m, s''.stock m = initStock.stock m) ∧
    billTotalOf (billItemDelete (billItemSave (service_bill_create initDB 0 0 0 0
        [(10, ⟨0, some .service, some 1, none, 1, 100, 0⟩)] 0 1) 11
        ⟨0, some .service, some 1, none, 1, 50, 0⟩) 11) 0 = 100 := by
  refine ⟨?_, ?_, ?_⟩
  · exact c5_delta_symmetry_amended.1 initDB 1 ⟨0, none, 100⟩ (by decide) 0
  · exact c5_delta_symmetry_amended.2.1 initStock 1 ⟨1, .purchase, 5⟩
      (runStockOp initStock (.save 1 ⟨1, .purchase, 5⟩)) (by decide)
      (fun m => le_refl 0) (by rfl)
  · have h := c5_delta_symmetry_amended.2.2
      (service_bill_create initDB 0 0 0 0
        [(10, ⟨0, some .service, some 1, none, 1, 100, 0⟩)] 0 1) 11
      ⟨0, some .service, some 1, none, 1, 50, 0⟩
      ⟨0, 0, 0, 100, 0⟩ (by decide) (by decide) (by decide)
    simpa using h

/-- Claim C8 counterexample: deleting a payment through an in-memory
instance whose `amount` (50) differs from the persisted row's amount (100)
adds back 50 — the in-memory copy — not the persisted 100, so the claim
that the persisted amount is used is false. -/
theorem c8_counterexample :
    optSum (fun p => p.amount)
        (lookupTbl (runBilling [.payCreate 1 0 none 100]).payments 1) = 100 ∧
    (paymentDelete (runBilling [.payCreate 1 0 none 100]) 1 ⟨0, none, 50⟩).balance 0
      = (runBilling [.payCreate 1 0 none 100]).balance 0 + 50 ∧
    (paymentDelete (runBilling [.payCreate 1 0 none 100]) 1 ⟨0, none, 50⟩).balance 0
      ≠ (runBilling [.payCreate 1 0 none 100]).balance 0 + 100 := by
  refine ⟨by decide, by decide, by decide⟩

/-- Claim C8 (amended): `Payment.delete` adds back the in-memory instance's
`amount` (also when zero, where the update is skipped but adds nothing);
this equals the persisted amount exactly when the instance was freshly
loaded from the row, as in every delete call site of the repository. -/
theorem c8_payment_delete_amended :
    (∀ (s : DBState) (pid : Nat) (inst : Payment),
      (paymentDelete s pid inst).balance inst.patient
        = s.balance inst.patient + inst.amount) ∧
    (∀ (s : DBState) (pid : Nat) (p : Payment),
      lookupTbl s.payments pid = some p →
      (paymentDeleteFresh s pid).balance p.patient
        = s.balance p.patient + p.amount) := by
  constructor
  · intro s pid inst
    by_cases hz : inst.amount = 0
    · rw [paymentDelete_eq_zero s pid inst hz, hz]
      show s.balance inst.patient = _
      ring
    · rw [paymentDelete_eq_pos s pid inst hz]
      show bump s.balance inst.patient inst.amount inst.patient = _
      rw [bump_self]
  · intro s pid p hlook
    unfold paymentDeleteFresh
    simp only [hlook]
    by_cases hz : p.amount = 0
    · rw [paymentDelete_eq_zero s pid p hz, hz]
      show s.balance p.patient = _
      ring
    · rw [paymentDelete_eq_pos s pid p hz]
      show bump s.balance p.patient p.amount p.patient = _
      rw [bump_self]

/-- Claim C8 witness: the amended statement at the counterexample's state
and at a freshly loaded instance. -/
theorem c8_payment_delete_amended_witness :
    (paymentDelete (runBilling [.payCreate 1 0 none 100]) 1
        (⟨0, none, 50⟩ : Payment)).balance 0
      = (runBilling [.payCreate 1 0 none 100]).balance 0 + 50 ∧
    (paymentDeleteFresh (runBilling [.payCreate 1 0 none 100]) 1).balance 0
      = (runBilling [.payCreate 1 0 none 100]).balance 0 + 100 := by
  constructor
  · exact c8_payment_delete_amended.1 (runBilling [.payCreate 1 0 none 100]) 1 ⟨0, none, 50⟩
  · exact c8_payment_delete_amended.2 (runBilling [.payCreate 1 0 none 100]) 1
      ⟨0, none, 100⟩ (by decide)

/-- Claim C9: saving a `Bill` without the explicit `update_patient_balance`
flag never changes any patient's balance, and neither does saving or
deleting a `BillItem` — the bill-total delta reaches `patient.balance`
only through the explicit orchestration calls. -/
theorem c9_no_automatic_balance :
    (∀ (s : DBState) (bid : Nat) (b : Bill) (p : Nat),
      (billSave s bid b false).balance p = s.balance p) ∧
    (∀ (s : DBState) (iid : Nat) (it : BillItem) (p : Nat),
      (billItemSave s iid it).balance p = s.balance p) ∧
    (∀ (s : DBState) (iid : Nat) (p : Nat),
      (billItemDelete s iid).balance p = s.balance p) := by
  refine ⟨?_, ?_, ?_⟩
  · intro s bid b p
    rw [billSave_false]
  · intro s iid it p
    unfold billItemSave
    cases hb : lookupTbl s.bills it.bill with
    | none => rfl
    | some b =>
      dsimp only
      rw [billSave_false]
  · intro s iid p
    unfold billItemDelete
    cases hit : lookupTbl s.items iid with
    | none => rfl
    | some it =>
      dsimp only
      cases hb : lookupTbl s.bills it.bill with
      | none =>
        dsimp only
        unfold recalculate
        cases hb2 : lookupTbl ({ s with items := removeTbl s.items iid } : DBState).bills it.bill with
        | none => rfl
        | some b2 =>
          dsimp only
          rw [billSave_false]
      | some b =>
        dsimp only
        rw [billSave_false]
        unfold recalculate
        cases hb2 : lookupTbl (insertTbl s.bills it.bill
            ({ b with total_amount := b.total_amount - it.total_price })) it.bill with
        | none => rfl
        | some b2 =>
          dsimp only
          rw [billSave_false]

/-- Claim C10: a `BillItem` saved with an unset kind and exactly one
reference set gets its kind inferred before the row is stored — `service`
for a lone service reference, `pharmacy` for a lone medicine reference. -/
theorem c10_kind_inference :
    (∀ svc : Nat, infer_billitem_kind none (some svc) none = some .service) ∧
    (∀ med : Nat, infer_billitem_kind none none (some med) = some .pharmacy) ∧
    (∀ (s : DBState) (iid : Nat) (it : BillItem) (svc : Nat),
      it.kind = none → it.service = some svc → it.medicine = none →
      (lookupTbl (billItemSave s iid it).items iid).map (fun r => r.kind)
        = some (some .service)) ∧
    (∀ (s : DBState) (iid : Nat) (it : BillItem) (med : Nat),
      it.kind = none → it.service = none → it.medicine = some med →
      (lookupTbl (billItemSave s iid it).items iid).map (fun r => r.kind)
        = some (some .pharmacy)) := by
  have hitems : ∀ (s : DBState) (iid : Nat) (it : BillItem),
      (billItemSave s iid it).items = insertTbl s.items iid (billItemRow it) := by
    intro s iid it
    unfold billItemSave
    cases hb : lookupTbl s.bills it.bill with
    | none => rfl
    | some b =>
      dsimp only
      rw [billSave_false]
  refine ⟨fun svc => rfl, fun med => rfl, ?_, ?_⟩
  · intro s iid it svc hk hs hm
    rw [hitems s iid it, lookupTbl_insertTbl_self]
    show some (infer_billitem_kind it.kind it.service it.medicine) = _
    rw [hk, hs, hm]
    rfl
  · intro s iid it med hk hs hm
    rw [hitems s iid it, lookupTbl_insertTbl_self]
    show some (infer_billitem_kind it.kind it.service it.medicine) = _
    rw [hk, hs, hm]
    rfl

/-- Claim C10 witness: a kind-less item with only a service reference is
stored as a service item, one with only a medicine reference as a pharmacy
item. -/
theorem c10_kind_inference_witness :
    (lookupTbl (billItemSave initDB 10 ⟨0, none, some 3, none, 1, 100, 0⟩).items 10).map
        (fun r => r.kind) = some (some .service) ∧
    (lookupTbl (billItemSave initDB 11 ⟨0, none, none, some 4, 1, 100, 0⟩).items 11).map
        (fun r => r.kind) = some (some .pharmacy) :=
  ⟨c10_kind_inference.2.2.1 initDB 10 ⟨0, none, some 3, none, 1, 100, 0⟩ 3 rfl rfl rfl,
   c10_kind_inference.2.2.2 initDB 11 ⟨0, none, none, some 4, 1, 100, 0⟩ 4 rfl rfl rfl⟩

end DlappCrm
